import Mathlib

/-!
Verification of the address-verification pipeline
(`api/verify-single-address.js`, a Vercel serverless function).

The source file contains two revisions of the same handler, separated by a
document marker: "rev 1" (first in the file: anchored PIN match, dedicated
`cleanCustomerName`) and "rev 2" (second: unanchored PIN match, unguarded
`customerName.replace`, extra "deep thinking" checks).  Both are embedded.

Modelling conventions:
* JS strings are Lean `String`s; character-level work happens on `List Char`.
* JS case conversion is modelled for ASCII (the only characters the relevant
  code paths can produce or compare).
* The two outbound HTTP services (India Post, Gemini) are external worlds:
  a postal world maps a PIN string to the observed HTTP outcome, and the
  Gemini call outcome is supplied directly (the prompt text sent out does not
  influence any verified property).  `JSON.parse` of the Gemini reply is
  abstracted as a total function `String → Option ParsedData`
  (`none` = parse throws); everything after the parse is embedded concretely.
* JS exceptions are an `Except` layer; the handler's outer `try/catch`
  converts them to a 500 "Internal Server Error" response.
* CORS headers, the OPTIONS/405 method branches and `console.error` calls are
  not modelled (transport plumbing with no data flow into the record).
* Source strings containing single-quote characters are embedded without the
  quote characters (the file avoids apostrophes inside string literals); no
  verified property inspects those characters.
-/

/-! ## ASCII character helpers (JS `\w`, `\s`, `\d`, case mapping) -/

def lcPairs : List (Char × Char) :=
  [('A','a'),('B','b'),('C','c'),('D','d'),('E','e'),('F','f'),('G','g'),('H','h'),
   ('I','i'),('J','j'),('K','k'),('L','l'),('M','m'),('N','n'),('O','o'),('P','p'),
   ('Q','q'),('R','r'),('S','s'),('T','t'),('U','u'),('V','v'),('W','w'),('X','x'),
   ('Y','y'),('Z','z')]

/-- JS `toLowerCase`, restricted to ASCII. -/
def lcChar (c : Char) : Char :=
  match lcPairs.find? (fun p => p.1 = c) with
  | some p => p.2
  | none => c

/-- JS `toUpperCase` of a single character, restricted to ASCII. -/
def ucChar (c : Char) : Char :=
  match lcPairs.find? (fun p => p.2 = c) with
  | some p => p.1
  | none => c

/-- JS regex `\w`: ASCII letters, digits, underscore. -/
def isWordChar (c : Char) : Bool :=
  (('A' ≤ c && c ≤ 'Z') || ('a' ≤ c && c ≤ 'z') || ('0' ≤ c && c ≤ '9') || c = '_')

/-- JS regex `\d`. -/
def isDigitChar (c : Char) : Bool :=
  ('0' ≤ c && c ≤ '9')

/-- JS regex `\s` (WhiteSpace and line terminators). -/
def isSpaceJs (c : Char) : Bool :=
  let n := c.toNat
  (n = 0x20 || n = 0x9 || n = 0xa || n = 0xb || n = 0xc || n = 0xd ||
   n = 0xa0 || n = 0x1680 || (0x2000 ≤ n && n ≤ 0x200a) ||
   n = 0x2028 || n = 0x2029 || n = 0x202f || n = 0x205f || n = 0x3000 || n = 0xfeff)

def lowerL (l : List Char) : List Char := l.map lcChar

/-- JS `str.toLowerCase()` (ASCII model). -/
def lowerStr (s : String) : String := String.mk (lowerL s.data)

/-! ## List-of-char string operations mirroring the JS built-ins -/

/-- `String.prototype.trim` (strip leading/trailing whitespace). -/
def jsTrimL (l : List Char) : List Char :=
  ((l.dropWhile isSpaceJs).reverse.dropWhile isSpaceJs).reverse

def jsTrim (s : String) : String := String.mk (jsTrimL s.data)

/-- Helper state machine for `replace(/\s+/g, ' ')`: `inRun` records whether
the previous character was whitespace. -/
def collapseWsAux : Bool → List Char → List Char
  | _, [] => []
  | inRun, c :: r =>
    if isSpaceJs c then
      if inRun then collapseWsAux true r else ' ' :: collapseWsAux true r
    else c :: collapseWsAux false r

/-- `replace(/\s+/g, ' ')`: every maximal whitespace run becomes one space. -/
def collapseWs (l : List Char) : List Char := collapseWsAux false l

/-- Fuelled form of `replace(/\s{2,}/g, ' ')` (each step consumes at least
one character, so fuel = input length always suffices). -/
def collapseWs2Aux : Nat → List Char → List Char
  | 0, l => l
  | _ + 1, [] => []
  | fuel + 1, c :: r =>
    if isSpaceJs c then
      match r with
      | [] => [c]
      | d :: r2 =>
        if isSpaceJs d then ' ' :: collapseWs2Aux fuel ((d :: r2).dropWhile isSpaceJs)
        else c :: d :: collapseWs2Aux fuel r2
    else c :: collapseWs2Aux fuel r

/-- `replace(/\s{2,}/g, ' ')`: whitespace runs of length at least two become
one space; a lone whitespace character is kept as is. -/
def collapseWs2 (l : List Char) : List Char := collapseWs2Aux l.length l

/-- Split on a single space character (JS `split(' ')`). -/
def splitSp : List Char → List (List Char)
  | [] => [[]]
  | c :: r =>
    match splitSp r with
    | [] => [[]]
    | w :: ws => if c = ' ' then [] :: w :: ws else (c :: w) :: ws

/-- Join with a single space (JS `join(' ')`). -/
def joinSp : List (List Char) → List Char
  | [] => []
  | [w] => w
  | w :: ws => w ++ ' ' :: joinSp ws

/-- `word.charAt(0).toUpperCase() + word.slice(1)`. -/
def capFirst : List Char → List Char
  | [] => []
  | c :: r => ucChar c :: r

/-- `cleaned.toLowerCase().split(' ').map(capitalize).join(' ')`. -/
def titleCaseL (l : List Char) : List Char :=
  joinSp ((splitSp (lowerL l)).map capFirst)

/-- `startsWith`, used for substring scans. -/
def listStartsWith : List Char → List Char → Bool
  | [], _ => true
  | _ :: _, [] => false
  | p :: ps, c :: cs => p = c && listStartsWith ps cs

/-- JS `String.prototype.includes` (note: the empty pattern is always found). -/
def isSubstrL (pat : List Char) : List Char → Bool
  | [] => listStartsWith pat []
  | c :: r => listStartsWith pat (c :: r) || isSubstrL pat r

def isSubstr (pat s : String) : Bool := isSubstrL pat.data s.data

/-! ## Word-boundary regex machinery

All regexes in the source are alternations of literal words wrapped in `\b`
(the name-cleanup list additionally contains `sh.` whose `.` matches any
character), applied with the `g` and `i` flags.  A pattern is a list of
pattern characters; alternatives are tried in list order at each position,
exactly as the JS engine tries `(?:w1|w2|…)` alternatives. -/

inductive PatC where
  | lit (c : Char)
  | anyc
deriving DecidableEq, Repr

def litPat (s : String) : List PatC := s.data.map PatC.lit

/-- Case-insensitive match of one pattern at the head of the input; returns
the matched input characters and the rest. -/
def matchPat : List PatC → List Char → Option (List Char × List Char)
  | [], rest => some ([], rest)
  | _ :: _, [] => none
  | p :: ps, c :: cs =>
    let hd : Bool := match p with
      | .lit x => lcChar x == lcChar c
      | .anyc => true
    if hd then
      match matchPat ps cs with
      | some (m, rest) => some (c :: m, rest)
      | none => none
    else none

/-- JS `\b`: a boundary holds between two (optional) characters iff exactly
one side is a word character; an absent side counts as non-word. -/
def isBoundary (a b : Option Char) : Bool :=
  (match a with | some c => isWordChar c | none => false) ≠
  (match b with | some c => isWordChar c | none => false)

/-- Try every alternative, in order, at the current position (`prev` is the
input character before the position).  Succeeds with the matched slice and
remaining input when the alternative matches and both `\b` anchors hold. -/
def tryWordsAt (words : List (List PatC)) (prev : Option Char) (s : List Char) :
    Option (List Char × List Char) :=
  match words with
  | [] => none
  | w :: ws =>
    match matchPat w s with
    | some (m, rest) =>
      if m ≠ [] && isBoundary prev m.head? && isBoundary m.getLast? rest.head? then
        some (m, rest)
      else tryWordsAt ws prev s
    | none => tryWordsAt ws prev s

/-- Global replace-with-empty of a `\b(?:w1|w2|…)\b` alternation (`gi` flags),
fuelled by the input length (every match consumes at least one character). -/
def replaceWordsAux (words : List (List PatC)) :
    Nat → Option Char → List Char → List Char
  | 0, _, _ => []
  | _ + 1, _, [] => []
  | fuel + 1, prev, c :: r =>
    match tryWordsAt words prev (c :: r) with
    | some (m, rest) => replaceWordsAux words fuel m.getLast? rest
    | none => c :: replaceWordsAux words fuel (some c) r

def replaceWords (words : List (List PatC)) (s : List Char) : List Char :=
  replaceWordsAux words s.length none s

/-- First word-bounded case-insensitive occurrence of `w` in `s`, returning
the matched slice in its original casing (the `address.match(\b…\b, i)`
step of the landmark logic). -/
def findBoundedCi (w : List PatC) : Option Char → List Char → Option (List Char)
  | _, [] => (match matchPat w [] with
      | some (m, _) => if m ≠ [] then some m else none
      | none => none)
  | prev, c :: r =>
    match matchPat w (c :: r) with
    | some (m, rest) =>
      if m ≠ [] && isBoundary prev m.head? && isBoundary m.getLast? rest.head? then
        some m
      else findBoundedCi w (some c) r
    | none => findBoundedCi w (some c) r

/-! ## The configuration word lists of the source file -/

def testingKeywords : List String :=
  ["test", "testing", "asdf", "qwer", "zxcv", "random", "gjnj", "fgjnj"]

/-- Rev 1 core list (rev 2 replaces the trailing additions with "vpo"). -/
def coreMeaningfulWordsRev1 : List String :=
  ["ddadu", "ddadu", "ai", "add", "add-", "raw", "dumping", "grand", "dumping grand",
   "chd", "chd-", "chandigarh", "chandigarh-", "chandigarh", "west", "sector", "sector-",
   "house", "no", "no#", "house no", "house no#", "floor", "first", "first floor",
   "majra", "colony", "dadu", "dadu majra", "shop", "wine", "wine shop", "house", "number",
   "tq", "job", "dist", "sirf", "aata", "gp", "gram panchayat"]

def coreMeaningfulWordsRev2 : List String :=
  ["ddadu", "ddadu", "ai", "add", "add-", "raw", "dumping", "grand", "dumping grand",
   "chd", "chd-", "chandigarh", "chandigarh-", "chandigarh", "west", "sector", "sector-",
   "house", "no", "no#", "house no", "house no#", "floor", "first", "first floor",
   "majra", "colony", "dadu", "dadu majra", "shop", "wine", "wine shop", "house", "number",
   "tq", "job", "dist", "vpo"]

def meaninglessPatsRev1 : List (List PatC) :=
  (coreMeaningfulWordsRev1 ++ testingKeywords).map litPat

def meaninglessPatsRev2 : List (List PatC) :=
  (coreMeaningfulWordsRev2 ++ testingKeywords).map litPat

/-- `address.replace(meaninglessRegex, '')` (rev 1 list). -/
def stripNoiseRev1 (s : String) : String := String.mk (replaceWords meaninglessPatsRev1 s.data)

/-- `address.replace(meaninglessRegex, '')` (rev 2 list). -/
def stripNoiseRev2 (s : String) : String := String.mk (replaceWords meaninglessPatsRev2 s.data)

def directionalKeywords : List String :=
  ["near", "opposite", "back side", "front side", "behind", "opp"]

/-- Rev 2 component-leakage word list. -/
def leakageKeywords : List String :=
  ["road", "street", "lane", "colony", "apartment", "bldg", "area", "nagar",
   "vihar", "marg", "vpo", "po", "tq"]

/-- Name-cleanup alternation of rev 1; the `.` of "sh." is a genuine regex
wildcard because the source does not escape the word list. -/
def nameCleanupPats : List (List PatC) :=
  [litPat "mr", litPat "mrs", litPat "ms", litPat "dr", litPat "prof", litPat "engr",
   litPat "pvt", litPat "ltd", litPat "private", litPat "limited", litPat "co",
   litPat "company", litPat "proprietor", litPat "prop", litPat "firm", litPat "group",
   litPat "the", litPat "s/o", litPat "d/o", litPat "c/o", litPat "son of",
   litPat "daughter of", litPat "shri", litPat "smt", litPat "md",
   [PatC.lit 's', PatC.lit 'h', PatC.anyc], litPat "m/s", litPat "karta", litPat "huf"]

/-! ## `cleanCustomerName` (rev 1) and the rev 2 inline name cleaning -/

/-- Rev 1 `cleanCustomerName`: falsy input gives `null`; otherwise strip
non-word non-space characters, strip the cleanup words, collapse whitespace,
trim, Title-Case, and return `null` for an empty result (`cleaned || null`). -/
def cleanCustomerName (name : Option String) : Option String :=
  match name with
  | none => none
  | some s =>
    if s = "" then none
    else
      let a := s.data.filter (fun c => isWordChar c || isSpaceJs c)
      let b := replaceWords nameCleanupPats a
      let c := jsTrimL (collapseWs b)
      let t := titleCaseL c
      if t = [] then none else some (String.mk t)

/-- Rev 2 inline cleaning `customerName.replace(...).replace(...).trim() || null`.
A missing `customerName` makes the member access throw (`Except.error`). -/
def cleanedNameRev2 (name : Option String) : Except String (Option String) :=
  match name with
  | none => Except.error "Cannot read properties of undefined (reading replace)"
  | some s =>
    let a := s.data.filter (fun c => isWordChar c || isSpaceJs c)
    let c := jsTrimL (collapseWs a)
    Except.ok (if c = [] then none else some (String.mk c))

/-! ## PIN extraction -/

/-- One step of the `\b\d{6}\b` scan: try to take exactly six digits at the
current position with word boundaries on both sides. -/
def sixDigitsAt (prev : Option Char) (s : List Char) : Option (List Char) :=
  let ds := s.take 6
  if ds.length = 6 && ds.all isDigitChar && isBoundary prev ds.head? &&
      isBoundary ds.getLast? (s.drop 6).head? then
    some ds
  else none

def extractPinAux : Option Char → List Char → Option (List Char)
  | prev, [] => sixDigitsAt prev []
  | prev, c :: r =>
    match sixDigitsAt prev (c :: r) with
    | some ds => some ds
    | none => extractPinAux (some c) r

/-- `extractPin`: first `\b\d{6}\b` match of the address, else `null`. -/
def extractPin (address : String) : Option String :=
  (extractPinAux none address.data).map String.mk

/-- Anchored test `^\d{6}$` (rev 1 PIN sanity check). -/
def isSixDigitString (s : String) : Bool :=
  s.data.length = 6 && s.data.all isDigitChar

/-- Unanchored test `\b\d{6}\b` (rev 2 PIN sanity check). -/
def hasSixDigitRun (s : String) : Bool :=
  (extractPinAux none s.data).isSome

/-! ## JS truthiness helpers for optional string fields -/

/-- `a || b` where `a` is a possibly-absent string field. -/
def strOr (a : Option String) (b : String) : String :=
  match a with
  | some s => if s = "" then b else s
  | none => b

/-- JS truthiness of a possibly-absent string field. -/
def strTruthy (a : Option String) : Bool :=
  match a with
  | some s => !(s = "")
  | none => false

/-! ## Postal Reference Lookup (`getIndiaPostData`, identical in both revisions)

The external service is a world mapping the string appended to the URL to the
observed outcome of `fetch` + `response.json()`. -/

structure PostOffice where
  name : String
  taluk : String
  district : String
  state : String
deriving DecidableEq, Repr

inductive PinResult where
  | success (offices : List PostOffice)
  | error
deriving DecidableEq, Repr

def PinResult.isSuccess : PinResult → Bool
  | .success _ => true
  | .error => false

structure RawPO where
  name : Option String
  taluk : Option String
  subDistrict : Option String
  district : Option String
  state : Option String
deriving DecidableEq, Repr

/-- One element of the JSON array the service returns; `postOffice = none`
models an absent `PostOffice` key (mapping over it throws, caught below). -/
structure RawPostEntry where
  status : String
  postOffice : Option (List RawPO)
deriving DecidableEq, Repr

inductive PostApiOutcome where
  | netThrow
  | resp (httpStatus : Nat) (body : List RawPostEntry)

abbrev PostWorld := String → PostApiOutcome

abbrev Cache := List (String × PinResult)

/-- `{ Name: po.Name || '', Taluk: po.Taluk || po.SubDistrict || '', … }`. -/
def normPO (po : RawPO) : PostOffice :=
  { name := strOr po.name ""
    taluk := strOr po.taluk (strOr po.subDistrict "")
    district := strOr po.district ""
    state := strOr po.state "" }

/-- What the `try`-block of `getIndiaPostData` computes on a cache miss:
network or JSON failure, an empty array (`data[0]` undefined, so `.Status`
throws), non-200, a non-"Success" marker, or a missing `PostOffice` list all
land in the `catch`/error path; otherwise the office list is normalized. -/
def postFetchResult (w : PostWorld) (pin : String) : PinResult :=
  match w pin with
  | .netThrow => .error
  | .resp st body =>
    match body.head? with
    | none => .error
    | some pd =>
      if st ≠ 200 ∨ pd.status ≠ "Success" then .error
      else
        match pd.postOffice with
        | none => .error
        | some l => .success (l.map normPO)

/-- `getIndiaPostData`: cache check first (every cached value is a truthy JS
object), single outbound call on a miss, both outcomes cached.  The third
component counts outbound network calls (0 or 1).  There is no input
validation of `pin`. -/
def getIndiaPostData (w : PostWorld) (cache : Cache) (pin : String) :
    PinResult × Cache × Nat :=
  match cache.lookup pin with
  | some r => (r, cache, 0)
  | none =>
    let r := postFetchResult w pin
    (r, (pin, r) :: cache, 1)

/-! ## Text Extraction Oracle call (`getGeminiResponse`) -/

/-- Outcome of one `fetch` + `response.json()` against the Gemini endpoint.
`errMessage` is `result.error?.message`; `candidates` abstracts
`result.candidates[*].content.parts[0].text`. -/
inductive GemFetch where
  | netThrow (msg : String)
  | resp (httpStatus : Nat) (errMessage : Option String) (candidates : List String)

structure GemResponse where
  text : Option String
  error : Option String
deriving DecidableEq, Repr

/-- `getGeminiResponse`, minus the outbound prompt (whose content does not
influence any verified property): missing/empty API key short-circuits; a
non-200 status or a network error returns an error; otherwise the first
candidate text is returned.  The call is made exactly once — the source has
no retry loop. -/
def getGeminiCore (apiKey : Option String) (f : GemFetch) : GemResponse :=
  if ¬ strTruthy apiKey then
    { text := none, error := some "Gemini API key not set in Vercel environment variables." }
  else
    match f with
    | .netThrow m => { text := none, error := some ("Error during Gemini API call: " ++ m) }
    | .resp st errMsg cands =>
      if st ≠ 200 then
        { text := none, error := some ("Gemini API Error: " ++ strOr errMsg "Unknown error.") }
      else
        match cands.head? with
        | some t => { text := some t, error := none }
        | none => { text := none, error := some "Gemini API Error: No candidates found in response." }

/-- `getGeminiResponse` with an attempt-indexed world and an attempt counter:
the function performs at most one fetch (attempt 0); the worlds of later
attempt indices are never consulted. -/
def getGeminiWithLog (apiKey : Option String) (w : Nat → GemFetch) : GemResponse × Nat :=
  (getGeminiCore apiKey (w 0), if strTruthy apiKey then 1 else 0)

/-! ## The Oracle's parsed JSON output -/

/-- The fields of the parsed Gemini JSON that the handlers read.  All fields
are optional strings (`none` = key absent or null).  `distDot` is the key
"DIST." and `dist` the key "DIST" (only the parse-failure fallback object
sets the latter, so the "DIST." read at response-building always misses it). -/
structure ParsedData where
  hNo : Option String := none
  flatNo : Option String := none
  plotNo : Option String := none
  roomNo : Option String := none
  buildingNo : Option String := none
  colony : Option String := none
  street : Option String := none
  locality : Option String := none
  buildingName : Option String := none
  po : Option String := none
  tehsil : Option String := none
  distDot : Option String := none
  dist : Option String := none
  state : Option String := none
  pin : Option String := none
  landmark : Option String := none
  remaining : Option String := none
  formattedAddress : Option String := none
  addressQuality : Option String := none
  locationType : Option String := none
  locationSuitability : Option String := none
deriving DecidableEq, Repr

/-- `JSON.parse` is abstracted as a total function; `none` models a throw. -/
abbrev JsonParse := String → Option ParsedData

def fenceAlts : List (List Char) := [("```json").data, ("```").data]

def tryLitsAt (alts : List (List Char)) (s : List Char) : Option (List Char) :=
  match alts with
  | [] => none
  | a :: rest =>
    if listStartsWith a s && a ≠ [] then some (s.drop a.length) else tryLitsAt rest s

def stripFencesAux : Nat → List Char → List Char
  | 0, l => l
  | _ + 1, [] => []
  | fuel + 1, c :: r =>
    match tryLitsAt fenceAlts (c :: r) with
    | some rest => stripFencesAux fuel rest
    | none => c :: stripFencesAux fuel r

/-- `geminiResult.text.replace(/```json|```/g, '').trim()`. -/
def cleanJsonText (s : String) : String :=
  jsTrim (String.mk (stripFencesAux s.data.length s.data))

/-- The remark pushed when `JSON.parse` throws. -/
def parseFailRemark (t : String) : String :=
  "CRITICAL_ALERT: JSON parse failed. Raw Gemini Output: " ++ String.mk (t.data.take 50) ++ "..."

/-- The fallback `parsedData` object substituted on parse failure
(`FormattedAddress` = noise-stripped raw address, quality = "Very Bad",
`Remaining` = the remark itself, `PIN` = the raw-extracted pin). -/
def fallbackParsed (stripNoiseF : String → String) (address : String)
    (initialPin : Option String) (remark : String) : ParsedData :=
  { formattedAddress := some (jsTrim (stripNoiseF address))
    landmark := some ""
    state := some ""
    dist := some ""
    pin := initialPin
    addressQuality := some "Very Bad"
    remaining := some remark }

/-- Step 2 of both handlers: fence-strip, parse, and on failure substitute
the degraded object and record the critical remark. -/
def parseGemini (jp : JsonParse) (stripNoiseF : String → String) (t : String)
    (address : String) (initialPin : Option String) : ParsedData × List String :=
  match jp (cleanJsonText t) with
  | some pd => (pd, [])
  | none =>
    let rk := parseFailRemark t
    (fallbackParsed stripNoiseF address initialPin rk, [rk])

/-! ## PIN verification and correction (step 3 of both handlers) -/

/-- `primaryPostOffice`: the JS value can be `undefined` (indexing `[0]` of an
empty — but truthy — office list), the `{}` default, or an office object.
Member access on `undefined` throws; on `{}` it yields `undefined`. -/
inductive PORef where
  | undef
  | emptyObj
  | office (po : PostOffice)
deriving DecidableEq, Repr

/-- `postalData.PostOfficeList ? postalData.PostOfficeList[0] : {}`. -/
def primaryOf : PinResult → PORef
  | .error => .emptyObj
  | .success [] => .undef
  | .success (o :: _) => .office o

/-- `postalData.PostOfficeList[0] || {}` (used after a verified AI lookup). -/
def primaryOrEmpty : PinResult → PORef
  | .error => .emptyObj
  | .success [] => .emptyObj
  | .success (o :: _) => .office o

/-- Rev 1 `finalPin` resolution: the Oracle pin wins only when it passes the
anchored `^\d{6}$` test; otherwise the raw-extracted pin. -/
def resolvePinRev1 (parsedPin initialPin : Option String) : Option String :=
  match parsedPin with
  | some s => if isSixDigitString s then some s else initialPin
  | none => initialPin

/-- Rev 2 `finalPin` resolution: the unanchored `\b\d{6}\b` test lets any
string containing a bounded six-digit run through unchanged. -/
def resolvePinRev2 (parsedPin initialPin : Option String) : Option String :=
  match parsedPin with
  | some s => if hasSixDigitRun s then some s else initialPin
  | none => initialPin

structure PinStageOut where
  finalPin : Option String
  resolvedPin : Option String
  postal : PinResult
  primary : PORef
  cache : Cache
  aiLookup : Option PinResult
  net : Nat
  remarks : List String
deriving Repr

/-- Rev 1 step 3 before the trailing `!finalPin` check. -/
def pinStageRev1Core (w : PostWorld) (cache : Cache)
    (parsedPin initialPin : Option String) (postal0 : PinResult) : PinStageOut :=
  let resolved := resolvePinRev1 parsedPin initialPin
  let primary0 := primaryOf postal0
  match resolved with
  | some fp =>
    if some fp ≠ initialPin then
      let res := getIndiaPostData w cache fp
      match res.1 with
      | .success l =>
        { finalPin := some fp, resolvedPin := resolved, postal := .success l,
          primary := primaryOrEmpty (.success l), cache := res.2.1,
          aiLookup := some (.success l), net := res.2.2,
          remarks := [match initialPin with
            | some ip =>
              "PIN (" ++ ip ++ ") was incorrect. Corrected to (" ++ fp ++ ") and verified."
            | none => "Correct PIN (" ++ fp ++ ") inferred by AI and verified."] }
      | .error =>
        { finalPin := initialPin, resolvedPin := resolved, postal := postal0,
          primary := primary0, cache := res.2.1, aiLookup := some .error, net := res.2.2,
          remarks := ["CRITICAL_ALERT: AI-provided PIN (" ++ fp ++
            ") not verified by API. Reverting to original PIN (" ++
            strOr initialPin "N/A" ++ ")."] }
    else
      { finalPin := some fp, resolvedPin := resolved, postal := postal0,
        primary := primary0, cache := cache, aiLookup := none, net := 0,
        remarks :=
          if initialPin.isSome ∧ postal0.isSuccess then
            ["PIN (" ++ strOr initialPin "" ++ ") verified successfully."]
          else if ¬ postal0.isSuccess then
            ["CRITICAL_ALERT: PIN (" ++ fp ++ ") found but not verified by India Post API."]
          else [] }
  | none =>
    { finalPin := none, resolvedPin := resolved, postal := postal0,
      primary := primary0, cache := cache, aiLookup := none, net := 0, remarks := [] }

/-- Rev 1 step 3 including the trailing
`if (!finalPin) remarks.push("CRITICAL_ALERT: PIN not found …")`. -/
def pinStageRev1 (w : PostWorld) (cache : Cache)
    (parsedPin initialPin : Option String) (postal0 : PinResult) : PinStageOut :=
  let out := pinStageRev1Core w cache parsedPin initialPin postal0
  if out.finalPin = none then
    { out with remarks := out.remarks ++
        ["CRITICAL_ALERT: PIN not found after verification attempts. Manual check needed."] }
  else out

/-- Rev 2 step 3: the re-lookup also runs when the pins are identical but the
initial lookup did not verify; the no-pin branch logs the manual-check remark
and falls back to `initialPin || null`. -/
def pinStageRev2 (w : PostWorld) (cache : Cache)
    (parsedPin initialPin : Option String) (postal0 : PinResult) : PinStageOut :=
  let resolved := resolvePinRev2 parsedPin initialPin
  let primary0 := primaryOf postal0
  match resolved with
  | some fp =>
    if ¬ postal0.isSuccess ∨ (initialPin.isSome ∧ some fp ≠ initialPin) then
      let res := getIndiaPostData w cache fp
      match res.1 with
      | .success l =>
        { finalPin := some fp, resolvedPin := resolved, postal := .success l,
          primary := primaryOrEmpty (.success l), cache := res.2.1,
          aiLookup := some (.success l), net := res.2.2,
          remarks :=
            if initialPin.isSome ∧ initialPin ≠ some fp then
              ["CRITICAL_ALERT: Wrong PIN (" ++ strOr initialPin "" ++
                ") corrected to (" ++ fp ++ ")."]
            else if initialPin = none then
              ["Correct PIN (" ++ fp ++ ") added by AI."]
            else [] }
      | .error =>
        { finalPin := initialPin, resolvedPin := resolved, postal := postal0,
          primary := primary0, cache := res.2.1, aiLookup := some .error, net := res.2.2,
          remarks := ["CRITICAL_ALERT: AI-provided PIN (" ++ fp ++ ") not verified by API."] }
    else
      { finalPin := some fp, resolvedPin := resolved, postal := postal0,
        primary := primary0, cache := cache, aiLookup := none, net := 0,
        remarks :=
          if initialPin.isSome ∧ postal0.isSuccess then
            ["PIN (" ++ strOr initialPin "" ++ ") verified successfully."]
          else [] }
  | none =>
    { finalPin := initialPin, resolvedPin := resolved, postal := postal0,
      primary := primary0, cache := cache, aiLookup := none, net := 0,
      remarks := ["CRITICAL_ALERT: PIN not found after verification attempts. Manual check needed."] }

/-! ## Landmark directional logic (identical in both revisions) -/

/-- The landmark assembly: if the (trimmed, stringified) Oracle landmark is
non-empty, find the first directional keyword (array order) contained in the
lowercased raw address; re-find its first word-bounded occurrence in the raw
address to recover the original casing (falling back to the lowercase keyword
when the bounded search fails); capitalize its first letter; default "Near". -/
def directionalLandmark (address : String) (landmark : Option String) : String :=
  let lv := jsTrim (strOr landmark "")
  if lv = "" then ""
  else
    match directionalKeywords.find? (fun kw => isSubstr kw (lowerStr address)) with
    | none => "Near " ++ lv
    | some kw =>
      let m := findBoundedCi (litPat kw) none address.data
      let w := match m with
        | some mc => String.mk mc
        | none => kw
      String.mk (capFirst w.data) ++ " " ++ lv

/-! ## Rev 1 residual-text and short-address remarks -/

/-- Rev 1 step 3.5: short formatted address with a non-top quality rating. -/
def shortCheckRev1 (parsed : ParsedData) : List String :=
  if strTruthy parsed.formattedAddress ∧
      (strOr parsed.formattedAddress "").data.length < 35 ∧
      parsed.addressQuality ≠ some "Very Good" ∧ parsed.addressQuality ≠ some "Good" then
    ["CRITICAL_ALERT: Formatted address is short (" ++
      toString (strOr parsed.formattedAddress "").data.length ++
      " chars). Manual verification recommended."]
  else []

/-- Rev 1 "Remaining" scrub: strip the noise words, trim, collapse runs of
two or more whitespace characters, and log what survives. -/
def remainingRemarksRev1 (parsed : ParsedData) : List String :=
  let fr := jsTrim (stripNoiseRev1 (strOr parsed.remaining ""))
  let fr2 := String.mk (collapseWs2 fr.data)
  if fr2 ≠ "" then ["Ambiguous Text: " ++ fr2] else []

/-! ## Rev 2 "advanced deep thinking" checks (section 4 of rev 2) -/

/-- Field read used once `primaryPostOffice` is known not to be `undefined`:
`{}` yields `undefined`, which every use site guards with `? :` or `&&`. -/
def poStr (f : PostOffice → String) : PORef → String
  | .office o => f o
  | _ => ""

def firstWordStr (s : String) : String :=
  String.mk ((splitSp s.data).headD [])

/-- JS template interpolation of a possibly-null value. -/
def showPin : Option String → String
  | some s => s
  | none => "null"

def leakageTest (s : String) : Bool :=
  leakageKeywords.any (fun w => (findBoundedCi (litPat w) none s.data).isSome)

/-- Rev 2 section 4 (4.1 semantic mismatch, 4.2 deep check, 4.3 premise,
4.4 leakage, 4.5 short/density), which starts by reading
`primaryPostOffice.State` — a throw when the office list was empty. -/
def deepChecksRev2 (address : String) (parsed : ParsedData) (finalPin : Option String)
    (postal : PinResult) (primary : PORef) : Except String (List String) :=
  match primary with
  | .undef => Except.error "Cannot read properties of undefined (reading State)"
  | _ =>
    let apiState := lowerStr (poStr PostOffice.state primary)
    let apiDistrict := lowerStr (poStr PostOffice.district primary)
    let rawLower := lowerStr address
    let r41 :=
      if postal.isSuccess then
        let aiState := lowerStr (strOr parsed.state "")
        let aiDistrict := if strTruthy parsed.distDot then strOr parsed.distDot "" else ""
        let aiDL := lowerStr aiDistrict
        (if apiDistrict ≠ "" ∧ aiDL ≠ "" ∧ apiDistrict ≠ aiDL ∧
            isSubstr (firstWordStr aiDL) rawLower then
          ["CRITICAL_ALERT: Semantic District Mismatch! PIN (" ++ showPin finalPin ++
            ") is for " ++ apiDistrict ++ " but address mentions " ++ aiDistrict ++ "."]
        else []) ++
        (if apiState ≠ "" ∧ aiState ≠ "" ∧ apiState ≠ aiState ∧
            isSubstr (firstWordStr aiState) rawLower then
          ["CRITICAL_ALERT: Semantic State Mismatch! PIN (" ++ showPin finalPin ++
            ") is for " ++ apiState ++ " but address mentions " ++ aiState ++ "."]
        else [])
      else []
    let r42 :=
      if postal.isSuccess ∧ poStr PostOffice.name primary ≠ "" then
        let fal := lowerStr (strOr parsed.formattedAddress "")
        if fal.data.length > 20 ∧ ¬ isSubstr apiDistrict fal ∧ ¬ isSubstr apiState fal then
          ["Deep Check: Formatted address components do not strongly reference the official P.O. (" ++
            poStr PostOffice.name primary ++ ")."]
        else []
      else []
    let hasPremise := strTruthy parsed.hNo || strTruthy parsed.flatNo ||
      strTruthy parsed.plotNo || strTruthy parsed.roomNo || strTruthy parsed.buildingNo
    let isLowQuality := parsed.addressQuality = some "Bad" ∨
      parsed.addressQuality = some "Very Bad" ∨ parsed.addressQuality = some "Medium"
    let r43 :=
      if ¬ hasPremise ∧ isLowQuality then
        ["CRITICAL_ALERT: No House/Flat/Plot Number found. Premise details are missing."]
      else []
    let r44 :=
      if leakageTest (lowerStr (strOr parsed.remaining "")) then
        ["CRITICAL_ALERT: Component Leakage in Remaining Text. Unparsed address elements detected."]
      else []
    let comps := [parsed.hNo, parsed.flatNo, parsed.plotNo, parsed.colony, parsed.street,
      parsed.locality, parsed.buildingName, parsed.landmark]
    let compCount := (comps.filter (fun c => strTruthy c && jsTrim (strOr c "") ≠ "")).length
    let total := (strOr parsed.formattedAddress "").data.length +
      (strOr parsed.landmark "").data.length
    let r45 :=
      (if total < 35 ∧ parsed.addressQuality ≠ some "Very Good" ∧
          parsed.addressQuality ≠ some "Good" then
        ["CRITICAL_ALERT: Formatted address is short (" ++ toString total ++
          " chars). Manual verification recommended."]
      else []) ++
      (if total > 20 ∧ compCount < 3 then
        ["CRITICAL_ALERT: Low Component Density. Only " ++ toString compCount ++
          " specific components found (H.No., Street, Colony, Landmark, etc.)."]
      else [])
    Except.ok (r41 ++ r42 ++ r43 ++ r44 ++ r45)

/-- Rev 2 final "Remaining" remark: logged only when non-blank and not the
parse-failure remark itself. -/
def remainingRemarksRev2 (parsed : ParsedData) : List String :=
  if strTruthy parsed.remaining ∧ jsTrim (strOr parsed.remaining "") ≠ "" ∧
      ¬ isSubstr "JSON parse failed" (strOr parsed.remaining "") then
    ["Remaining/Ambiguous Text: " ++ jsTrim (strOr parsed.remaining "")]
  else []

/-! ## Final response assembly (identical in both revisions) -/

structure VRecord where
  customerRawName : Option String
  customerCleanName : Option String
  addressLine1 : String
  landmark : String
  postOffice : String
  tehsil : String
  district : String
  state : String
  pin : Option String
  addressQuality : String
  locationType : String
  locationSuitability : String
  remarks : String
deriving DecidableEq, Repr

inductive HandlerResult where
  | badRequest (msg : String)
  | serverError (msg : String)
  | success (r : VRecord)
deriving DecidableEq, Repr

def HandlerResult.isSuccess : HandlerResult → Bool
  | .success _ => true
  | _ => false

def HandlerResult.isServerError : HandlerResult → Bool
  | .serverError _ => true
  | _ => false

/-- Record field of a successful response (used to state properties without
destructuring). -/
def HandlerResult.record : HandlerResult → Option VRecord
  | .success r => some r
  | _ => none

/-- The `finalResponse` object literal: geographic fields prefer the primary
post office (JS `||` truthiness, so an empty office field falls through to
the Oracle value), `addressLine1` prefers the Oracle's formatted address with
the noise-stripped raw address as fallback, and remarks are joined by "; ".
Reading a field of an `undefined` primary office throws. -/
def buildFinal (address : String) (stripNoiseF : String → String)
    (customerName cleanedName : Option String) (parsed : ParsedData)
    (finalPin : Option String) (primary : PORef) (landmarkStr : String)
    (remarks : List String) : Except String VRecord :=
  match primary with
  | .undef => Except.error "Cannot read properties of undefined (reading Name)"
  | p =>
    let oName := match p with | .office o => some o.name | _ => none
    let oTaluk := match p with | .office o => some o.taluk | _ => none
    let oDistrict := match p with | .office o => some o.district | _ => none
    let oState := match p with | .office o => some o.state | _ => none
    Except.ok
      { customerRawName := customerName
        customerCleanName := cleanedName
        addressLine1 := strOr parsed.formattedAddress (jsTrim (stripNoiseF address))
        landmark := landmarkStr
        postOffice := strOr oName (strOr parsed.po "")
        tehsil := strOr oTaluk (strOr parsed.tehsil "")
        district := strOr oDistrict (strOr parsed.distDot "")
        state := strOr oState (strOr parsed.state "")
        pin := finalPin
        addressQuality := strOr parsed.addressQuality "Medium"
        locationType := strOr parsed.locationType "Unknown"
        locationSuitability := strOr parsed.locationSuitability "Unknown"
        remarks := jsTrim (String.intercalate "; " remarks) }

/-! ## The two handler revisions -/

structure Request where
  address : Option String
  customerName : Option String

/-- Observation log of one handler run: outbound-call counts plus ghost
observation points for the PIN-correction logic and the postal reference in
effect at response time. -/
structure RunLog where
  lookupCalls : Nat := 0
  netCalls : Nat := 0
  initialPin : Option String := none
  initialPostal : PinResult := PinResult.error
  resolvedPin : Option String := none
  aiLookup : Option PinResult := none
  finalPin : Option String := none
  finalPostal : PinResult := PinResult.error
  primary : PORef := PORef.emptyObj
  remarksList : List String := []
deriving Repr

structure RunOut where
  res : HandlerResult
  cache : Cache
  log : RunLog
deriving Repr

/-- The shared tail of both handlers: build the final response, converting a
builder throw (undefined primary office) into the catch-all 500. -/
def finishRun (address : String) (f : String → String) (cn cl : Option String)
    (pd : ParsedData) (fp : Option String) (prim : PORef) (lm : String)
    (rem : List String) (cache : Cache) (log : RunLog) : RunOut :=
  match buildFinal address f cn cl pd fp prim lm rem with
  | .ok r => { res := .success r, cache := cache, log := log }
  | .error m =>
    { res := .serverError ("Internal Server Error: " ++ m), cache := cache, log := log }

/-- Rev 1 steps after a successful Gemini call (`t` is the returned text,
`initialPin` the raw-extracted pin, `first` the initial lookup outcome):
clean the name, parse, run pin correction, the short-address check, landmark
formatting, the residual-text scrub, the success default, and assemble the
response. -/
def rev1Tail (pw : PostWorld) (jp : JsonParse) (cn : Option String)
    (address t : String) (initialPin : Option String)
    (first : PinResult × Cache × Nat) : RunOut :=
  let cleanedName := cleanCustomerName cn
  let pr := parseGemini jp stripNoiseRev1 t address initialPin
  let parsed := pr.1
  let ps := pinStageRev1 pw first.2.1 parsed.pin initialPin first.1
  let landmarkStr := directionalLandmark address parsed.landmark
  let remarks0 := pr.2 ++ ps.remarks ++ shortCheckRev1 parsed ++ remainingRemarksRev1 parsed
  let remarks := if remarks0 = [] then ["Address verified and formatted successfully."] else remarks0
  let lc1 : Nat := if initialPin.isSome then 1 else 0
  let log : RunLog :=
    { lookupCalls := lc1 + (if ps.aiLookup.isSome then 1 else 0),
      netCalls := first.2.2 + ps.net, initialPin := initialPin, initialPostal := first.1,
      resolvedPin := ps.resolvedPin, aiLookup := ps.aiLookup,
      finalPin := ps.finalPin, finalPostal := ps.postal, primary := ps.primary,
      remarksList := remarks }
  finishRun address stripNoiseRev1 cn cleanedName parsed
    ps.finalPin ps.primary landmarkStr remarks ps.cache log

/-- Rev 1 handler (`module.exports`, first revision): validate the address,
extract and look up the raw pin, call Gemini, then run `rev1Tail`; thrown
exceptions become a 500 via the outer catch. -/
def handlerRev1 (pw : PostWorld) (gemKey : Option String) (gf : GemFetch)
    (jp : JsonParse) (cache : Cache) (req : Request) : RunOut :=
  if strTruthy req.address then
    let address := (req.address).getD ""
    let initialPin := extractPin address
    let first := match initialPin with
      | some p => getIndiaPostData pw cache p
      | none => (PinResult.error, cache, 0)
    let gr := getGeminiCore gemKey gf
    if strTruthy gr.error ∨ ¬ strTruthy gr.text then
      { res := .serverError (strOr gr.error "Gemini API failed to return text."),
        cache := first.2.1,
        log := { lookupCalls := if initialPin.isSome then 1 else 0,
                 netCalls := first.2.2, initialPin := initialPin } }
    else
      rev1Tail pw jp req.customerName address ((gr.text).getD "") initialPin first
  else
    { res := .badRequest "Address is required.", cache := cache, log := {} }

/-- Rev 2 steps after a successful Gemini call: parse, run pin correction,
the deep-thinking checks of section 4 (which can throw on an undefined
primary office), landmark formatting, the residual-text remark, the success
default, and assemble the response. -/
def rev2Tail (pw : PostWorld) (jp : JsonParse) (cn cleanedName : Option String)
    (address t : String) (initialPin : Option String)
    (first : PinResult × Cache × Nat) : RunOut :=
  let pr := parseGemini jp stripNoiseRev2 t address initialPin
  let parsed := pr.1
  let ps := pinStageRev2 pw first.2.1 parsed.pin initialPin first.1
  let lc1 : Nat := if initialPin.isSome then 1 else 0
  let log : RunLog :=
    { lookupCalls := lc1 + (if ps.aiLookup.isSome then 1 else 0),
      netCalls := first.2.2 + ps.net, initialPin := initialPin, initialPostal := first.1,
      resolvedPin := ps.resolvedPin, aiLookup := ps.aiLookup,
      finalPin := ps.finalPin, finalPostal := ps.postal, primary := ps.primary }
  match deepChecksRev2 address parsed ps.finalPin ps.postal ps.primary with
  | .error m =>
    { res := .serverError ("Internal Server Error: " ++ m), cache := ps.cache, log := log }
  | .ok deepRemarks =>
    let landmarkStr := directionalLandmark address parsed.landmark
    let remarks0 := pr.2 ++ ps.remarks ++ deepRemarks
    let remarks1 := remarks0 ++ remainingRemarksRev2 parsed
    let remarks :=
      if remainingRemarksRev2 parsed = [] ∧ remarks0 = [] then
        ["Address verified and formatted successfully."]
      else remarks1
    finishRun address stripNoiseRev2 cn cleanedName parsed
      ps.finalPin ps.primary landmarkStr remarks ps.cache
      { log with remarksList := remarks }

/-- Rev 2 handler (`module.exports`, second revision): same skeleton as rev 1,
but the name cleaning dereferences `customerName` unguarded, the pin logic is
`pinStageRev2`, and the extra checks run in `rev2Tail`. -/
def handlerRev2 (pw : PostWorld) (gemKey : Option String) (gf : GemFetch)
    (jp : JsonParse) (cache : Cache) (req : Request) : RunOut :=
  if strTruthy req.address then
    let address := (req.address).getD ""
    match cleanedNameRev2 req.customerName with
    | .error m =>
      { res := .serverError ("Internal Server Error: " ++ m), cache := cache, log := {} }
    | .ok cleanedName =>
      let initialPin := extractPin address
      let first := match initialPin with
        | some p => getIndiaPostData pw cache p
        | none => (PinResult.error, cache, 0)
      let gr := getGeminiCore gemKey gf
      if strTruthy gr.error ∨ ¬ strTruthy gr.text then
        { res := .serverError (strOr gr.error "Gemini API failed to return text."),
          cache := first.2.1,
          log := { lookupCalls := if initialPin.isSome then 1 else 0,
                   netCalls := first.2.2, initialPin := initialPin } }
      else
        rev2Tail pw jp req.customerName cleanedName address ((gr.text).getD "")
          initialPin first
  else
    { res := .badRequest "Address is required.", cache := cache, log := {} }

/-! ## Well-formedness of the external postal world

The real India Post service never reports Success with an empty office list
(the handlers would dereference `undefined` otherwise); theorems about
complete runs assume this of the world and of any pre-existing cache. -/

def PostWorldOk (w : PostWorld) : Prop :=
  ∀ pin, postFetchResult w pin ≠ PinResult.success []

def CacheOk (c : Cache) : Prop :=
  ∀ pin r, c.lookup pin = some r → r ≠ PinResult.success []

/-- Which constructor a handler result is (0 = 400, 1 = 500, 2 = success). -/
def HandlerResult.kind : HandlerResult → Nat
  | .badRequest _ => 0
  | .serverError _ => 1
  | .success _ => 2

/-- The title-casing transform of `cleanCustomerName` as a string map; being
a fixed point of it is the formal reading of "is Title-Case". -/
def titleCaseStr (s : String) : String := String.mk (titleCaseL s.data)

/-! ## Concrete scenario data for witnesses and counterexamples -/

def cxOffice : RawPO :=
  { name := some "Shivajinagar", taluk := some "Haveli", subDistrict := none,
    district := some "Pune", state := some "Maharashtra" }

def cxOfficeNoName : RawPO :=
  { name := none, taluk := some "Haveli", subDistrict := none,
    district := some "Pune", state := some "Maharashtra" }

def cxOfficeHyd : RawPO :=
  { name := some "Hyderabad GPO", taluk := some "Hyderabad", subDistrict := none,
    district := some "Hyderabad", state := some "Telangana" }

/-- Verifies exactly the pin "411001". -/
def pwPune : PostWorld := fun p =>
  if p = "411001" then .resp 200 [{ status := "Success", postOffice := some [cxOffice] }]
  else .netThrow

/-- Verifies "411001" but with an office whose `Name` field is absent. -/
def pwPuneNoName : PostWorld := fun p =>
  if p = "411001" then .resp 200 [{ status := "Success", postOffice := some [cxOfficeNoName] }]
  else .netThrow

/-- A service that happily verifies the malformed query "110001 India". -/
def pwWeird : PostWorld := fun p =>
  if p = "110001 India" then .resp 200 [{ status := "Success", postOffice := some [cxOfficeHyd] }]
  else .netThrow

/-- A service that verifies the non-6-digit input "12345". -/
def pwLoose : PostWorld := fun p =>
  if p = "12345" then .resp 200 [{ status := "Success", postOffice := some [cxOffice] }]
  else .netThrow

/-- Every lookup fails with an explicit failure marker. -/
def pwDown : PostWorld := fun _ => .resp 200 [{ status := "Error", postOffice := none }]

/-- A Gemini call that returns the text "oracle-reply". -/
def gfReply : GemFetch := .resp 200 none ["oracle-reply"]

/-- Attempt-indexed Gemini world: the first attempt fails transiently
(HTTP 500), every later attempt would succeed. -/
def gwTransient : Nat → GemFetch
  | 0 => .resp 500 none []
  | _ + 1 => .resp 200 none ["ok"]

def pdC2 : ParsedData :=
  { pin := some "110001 India", formattedAddress := some "Some Street, Pune Area Road",
    addressQuality := some "Good" }

def jpC2 : JsonParse := fun s => if s = "oracle-reply" then some pdC2 else none

def pdC3 : ParsedData :=
  { pin := some "500001", formattedAddress := some "Flat 5 Gandhi Street Lane Apartment",
    addressQuality := some "Good" }

def jpC3 : JsonParse := fun s => if s = "oracle-reply" then some pdC3 else none

def pdC4 : ParsedData :=
  { pin := some "411001", po := some "P.O. Shivajinagar",
    formattedAddress := some "12 MG Road Pune City Maharashtra Zone",
    addressQuality := some "Good" }

def jpC4 : JsonParse := fun s => if s = "oracle-reply" then some pdC4 else none

/-- A `JSON.parse` on which every input throws. -/
def jpFail : JsonParse := fun _ => none

/-! # Theorems -/

/-! ## Basic facts about the embedded primitives -/

theorem lc_lc (c : Char) : lcChar (lcChar c) = lcChar c := by
  unfold lcChar
  cases h : lcPairs.find? (fun p => p.1 = c) with
  | none => simp [h]
  | some p =>
    have hp : p ∈ lcPairs := List.mem_of_find?_eq_some h
    fin_cases hp <;> simp [lcPairs]

theorem lc_uc (c : Char) : lcChar (ucChar c) = lcChar c := by
  unfold ucChar
  cases h : lcPairs.find? (fun p => p.2 = c) with
  | none => simp
  | some p =>
    have hc := List.find?_some h
    have hp : p ∈ lcPairs := List.mem_of_find?_eq_some h
    simp at hc
    subst hc
    fin_cases hp <;> simp [lcChar, lcPairs]

theorem uc_uc (c : Char) : ucChar (ucChar c) = ucChar c := by
  unfold ucChar
  cases h : lcPairs.find? (fun p => p.2 = c) with
  | none => simp [ucChar, h]
  | some p =>
    have hp : p ∈ lcPairs := List.mem_of_find?_eq_some h
    fin_cases hp <;> simp [ucChar, lcPairs]

theorem lc_space (c : Char) : lcChar c = ' ' ↔ c = ' ' := by
  unfold lcChar
  cases h : lcPairs.find? (fun p => p.1 = c) with
  | none => simp
  | some p =>
    have hc := List.find?_some h
    have hp : p ∈ lcPairs := List.mem_of_find?_eq_some h
    simp at hc
    subst hc
    fin_cases hp <;> simp [lcPairs]

theorem lowerL_idem (l : List Char) : lowerL (lowerL l) = lowerL l := by
  simp [lowerL, List.map_map]
  exact fun c _ => lc_lc c

/-! ## C5 — cache idempotence of the Postal Reference Lookup -/

/-- C5: calling `getIndiaPostData` twice with the same pin within one process
lifetime returns identical results, issues at most one outbound network call
in total (the second call is served from the cache and issues none), and the
cache holds the result — whichever outcome — after the first call. -/
theorem c5_lookup_idempotent (w : PostWorld) (cache : Cache) (pin : String) :
    (getIndiaPostData w (getIndiaPostData w cache pin).2.1 pin).1 =
      (getIndiaPostData w cache pin).1 ∧
    (getIndiaPostData w (getIndiaPostData w cache pin).2.1 pin).2.2 = 0 ∧
    (getIndiaPostData w cache pin).2.2 +
      (getIndiaPostData w (getIndiaPostData w cache pin).2.1 pin).2.2 ≤ 1 ∧
    (getIndiaPostData w cache pin).2.1.lookup pin = some (getIndiaPostData w cache pin).1 := by
  unfold getIndiaPostData
  cases h : cache.lookup pin with
  | some r => simp [h]
  | none => simp [h, List.lookup]

/-! ## C6 — input validation of the Postal Reference Lookup -/

/-- C6 counterexample: the claim says a non-6-digit input is rejected with
`Unverified` and no outbound call.  For the non-6-digit input "12345" on an
empty cache the code issues one outbound call, and with a service that
answers Success it even returns a Verified result: there is no input
validation in `getIndiaPostData`. -/
theorem c6_cx :
    isSixDigitString "12345" = false ∧
    (getIndiaPostData pwLoose [] "12345").2.2 = 1 ∧
    (getIndiaPostData pwLoose [] "12345").1 = PinResult.success [normPO cxOffice] := by
  decide

/-- C6 amended: the lookup performs no format validation at all — any input
that misses the cache issues exactly one outbound call, and the returned
reference is whatever the service response determines. -/
theorem c6_no_validation (w : PostWorld) (cache : Cache) (pin : String)
    (h : cache.lookup pin = none) :
    (getIndiaPostData w cache pin).2.2 = 1 ∧
    (getIndiaPostData w cache pin).1 = postFetchResult w pin := by
  simp [getIndiaPostData, h]

theorem c6_no_validation_witness :
    ([] : Cache).lookup "12345" = none ∧
    ((getIndiaPostData pwDown [] "12345").2.2 = 1 ∧
      (getIndiaPostData pwDown [] "12345").1 = postFetchResult pwDown "12345") :=
  ⟨rfl, c6_no_validation pwDown [] "12345" rfl⟩

/-! ## C7 — retry policy of the Text Extraction Oracle call -/

/-- C7 counterexample: the claim says the Oracle call is retried (up to 3
attempts with backoff) on transient failure.  With a world whose first
attempt fails transiently (HTTP 500) and whose second attempt would succeed,
the code still makes exactly one attempt and returns an error — no retry
loop exists in `getGeminiResponse`. -/
theorem c7_cx :
    (getGeminiWithLog (some "key") gwTransient).2 = 1 ∧
    (getGeminiWithLog (some "key") gwTransient).1.text = none ∧
    (getGeminiWithLog (some "key") gwTransient).1.error =
      some "Gemini API Error: Unknown error." ∧
    getGeminiCore (some "key") (gwTransient 1) = { text := some "ok", error := none } := by
  decide

/-- C7 amended: with a (non-empty) API key configured, the Oracle call is
attempted exactly once — the result is whatever the single attempt produced;
transient failures are not retried and no backoff is performed. -/
theorem c7_single_attempt (k : String) (w : Nat → GemFetch) (hk : k ≠ "") :
    getGeminiWithLog (some k) w = (getGeminiCore (some k) (w 0), 1) := by
  simp [getGeminiWithLog, strTruthy, hk]

theorem c7_single_attempt_witness :
    "key" ≠ "" ∧
    getGeminiWithLog (some "key") gwTransient =
      (getGeminiCore (some "key") (gwTransient 0), 1) :=
  ⟨by decide, c7_single_attempt "key" gwTransient (by decide)⟩

/-! ## Split/join lemmas for the Title-Case fixed point (C10) -/

theorem splitSp_ne_nil (l : List Char) : splitSp l ≠ [] := by
  cases l with
  | nil => simp [splitSp]
  | cons c r =>
    simp only [splitSp]
    cases splitSp r with
    | nil => simp
    | cons w ws => by_cases hc : c = ' ' <;> simp [hc]

theorem splitSp_no_space (l : List Char) : ∀ w ∈ splitSp l, ' ' ∉ w := by
  induction l with
  | nil => simp [splitSp]
  | cons c r ih =>
    intro w hw
    simp only [splitSp] at hw
    cases h : splitSp r with
    | nil => simp [h] at hw; simp [hw]
    | cons v vs =>
      rw [h] at hw
      by_cases hc : c = ' '
      · simp [hc] at hw
        rcases hw with hw | hw | hw
        · simp [hw]
        · exact ih w (by rw [h]; simp [hw])
        · exact ih w (by rw [h]; simp [hw])
      · simp [hc] at hw
        rcases hw with hw | hw
        · subst hw
          intro hmem
          rcases List.mem_cons.mp hmem with h1 | h1
          · exact hc h1.symm
          · exact ih v (by rw [h]; simp) h1
        · exact ih w (by rw [h]; simp [hw])

theorem splitSp_nospace_id (w : List Char) (h : ' ' ∉ w) : splitSp w = [w] := by
  induction w with
  | nil => simp [splitSp]
  | cons c r ih =>
    have hc : c ≠ ' ' := fun hh => h (by simp [hh])
    have hr := ih (fun hh => h (List.mem_cons_of_mem _ hh))
    simp only [splitSp, hr]
    simp [fun hh => hc (hh : c = ' ')]

theorem splitSp_append (w r : List Char) (h : ' ' ∉ w) :
    splitSp (w ++ ' ' :: r) = w :: splitSp r := by
  induction w with
  | nil =>
    simp only [List.nil_append, splitSp]
    cases hsp : splitSp r with
    | nil => exact absurd hsp (splitSp_ne_nil r)
    | cons v vs => simp
  | cons c cs ih =>
    have hc : c ≠ ' ' := fun hh => h (by simp [hh])
    have ih2 := ih (fun hh => h (List.mem_cons_of_mem _ hh))
    simp only [List.cons_append, splitSp, List.append_eq]
    rw [ih2]
    simp [hc]

theorem splitSp_joinSp (ps : List (List Char)) (hne : ps ≠ [])
    (h : ∀ p ∈ ps, ' ' ∉ p) : splitSp (joinSp ps) = ps := by
  induction ps with
  | nil => exact absurd rfl hne
  | cons w ws ih =>
    cases ws with
    | nil => exact splitSp_nospace_id w (h w (by simp))
    | cons v vs =>
      have : joinSp (w :: v :: vs) = w ++ ' ' :: joinSp (v :: vs) := rfl
      rw [this, splitSp_append w _ (h w (by simp)),
        ih (by simp) (fun p hp => h p (List.mem_cons_of_mem _ hp))]

theorem lowerL_joinSp (ps : List (List Char)) :
    lowerL (joinSp ps) = joinSp (ps.map lowerL) := by
  induction ps with
  | nil => simp [joinSp, lowerL]
  | cons w ws ih =>
    cases ws with
    | nil => simp [joinSp]
    | cons v vs =>
      have h1 : joinSp (w :: v :: vs) = w ++ ' ' :: joinSp (v :: vs) := rfl
      have h2 : joinSp (lowerL w :: lowerL v :: vs.map lowerL) =
          lowerL w ++ ' ' :: joinSp (lowerL v :: vs.map lowerL) := rfl
      simp only [h1, List.map_cons, h2]
      simp only [lowerL, List.map_append, List.map_cons] at ih ⊢
      rw [ih]
      rw [show lcChar ' ' = ' ' from by decide]

theorem lowerL_capFirst (w : List Char) : lowerL (capFirst w) = lowerL w := by
  cases w with
  | nil => rfl
  | cons c r => simp [capFirst, lowerL, lc_uc]

theorem splitSp_lowerL (l : List Char) :
    splitSp (lowerL l) = (splitSp l).map lowerL := by
  induction l with
  | nil => simp [splitSp, lowerL]
  | cons c r ih =>
    have hl : lowerL (c :: r) = lcChar c :: lowerL r := rfl
    rw [hl]
    simp only [splitSp, ih]
    cases h : splitSp r with
    | nil => exact absurd h (splitSp_ne_nil r)
    | cons w ws =>
      by_cases hc : c = ' '
      · have : lcChar c = ' ' := (lc_space c).mpr hc
        simp [hc, this, lowerL, show lcChar ' ' = ' ' from by decide]
      · have : lcChar c ≠ ' ' := fun hh => hc ((lc_space c).mp hh)
        simp [hc, this, lowerL]

theorem titleCaseL_idem (l : List Char) : titleCaseL (titleCaseL l) = titleCaseL l := by
  have hNoSp := splitSp_no_space (lowerL l)
  have hne := splitSp_ne_nil (lowerL l)
  have hlow : ∀ w ∈ splitSp (lowerL l), lowerL w = w := by
    intro w hw
    rw [splitSp_lowerL] at hw
    rcases List.mem_map.mp hw with ⟨v, _, hv⟩
    rw [← hv, lowerL_idem]
  unfold titleCaseL
  have step1 : lowerL (joinSp ((splitSp (lowerL l)).map capFirst)) =
      joinSp (splitSp (lowerL l)) := by
    rw [lowerL_joinSp, List.map_map]
    congr 1
    calc (splitSp (lowerL l)).map (lowerL ∘ capFirst)
        = (splitSp (lowerL l)).map lowerL :=
          List.map_congr_left (fun w _ => lowerL_capFirst w)
      _ = splitSp (lowerL l) := (List.map_congr_left hlow).trans (List.map_id' _)
  rw [step1, splitSp_joinSp _ hne hNoSp]

/-! ## Projection lemmas for the response builder -/

theorem buildFinal_ok (address : String) (f : String → String)
    (cn cl : Option String) (pd : ParsedData) (fp : Option String) (prim : PORef)
    (lm : String) (rem : List String) (r : VRecord)
    (h : buildFinal address f cn cl pd fp prim lm rem = Except.ok r) :
    r.pin = fp ∧ r.customerRawName = cn ∧ r.customerCleanName = cl ∧ r.landmark = lm ∧
    r.addressLine1 = strOr pd.formattedAddress (jsTrim (f address)) ∧
    r.addressQuality = strOr pd.addressQuality "Medium" ∧
    r.remarks = jsTrim (String.intercalate "; " rem) ∧
    (∀ o, prim = PORef.office o →
      r.postOffice = strOr (some o.name) (strOr pd.po "") ∧
      r.tehsil = strOr (some o.taluk) (strOr pd.tehsil "") ∧
      r.district = strOr (some o.district) (strOr pd.distDot "") ∧
      r.state = strOr (some o.state) (strOr pd.state "")) ∧
    (prim = PORef.emptyObj →
      r.postOffice = strOr pd.po "" ∧ r.tehsil = strOr pd.tehsil "" ∧
      r.district = strOr pd.distDot "" ∧ r.state = strOr pd.state "") := by
  cases prim with
  | undef => simp [buildFinal] at h
  | emptyObj =>
    simp only [buildFinal, Except.ok.injEq] at h
    subst h
    simp [strOr]
  | office o =>
    simp only [buildFinal, Except.ok.injEq] at h
    subst h
    simp

theorem buildFinal_ne_undef (address : String) (f : String → String)
    (cn cl : Option String) (pd : ParsedData) (fp : Option String) (prim : PORef)
    (lm : String) (rem : List String) (h : prim ≠ PORef.undef) :
    ∃ r, buildFinal address f cn cl pd fp prim lm rem = Except.ok r := by
  cases prim with
  | undef => exact absurd rfl h
  | emptyObj => exact ⟨_, rfl⟩
  | office o => exact ⟨_, rfl⟩

/-! ## C10 — the cleaned customer name is null or a non-empty Title-Case string -/

/-- `cleanCustomerName` returns `null` or a non-empty Title-Case fixed point. -/
theorem cleanCustomerName_shape :
    ∀ name, cleanCustomerName name = none ∨
      ∃ s, cleanCustomerName name = some s ∧ s ≠ "" ∧ titleCaseStr s = s := by
  intro name
  cases name with
  | none => exact Or.inl rfl
  | some s =>
    by_cases hs : s = ""
    · exact Or.inl (by simp [cleanCustomerName, hs])
    · by_cases ht : titleCaseL (jsTrimL (collapseWs (replaceWords nameCleanupPats
          (s.data.filter (fun c => isWordChar c || isSpaceJs c))))) = []
      · exact Or.inl (by simp [cleanCustomerName, hs, ht])
      · have hval : cleanCustomerName (some s) = some (String.mk (titleCaseL
            (jsTrimL (collapseWs (replaceWords nameCleanupPats
              (s.data.filter (fun c => isWordChar c || isSpaceJs c))))))) := by
          simp [cleanCustomerName, hs, ht]
        refine Or.inr ⟨_, hval, ?_, ?_⟩
        · intro hEq
          exact ht (by simpa using congrArg String.data hEq)
        · unfold titleCaseStr
          rw [show (String.mk (titleCaseL (jsTrimL (collapseWs (replaceWords nameCleanupPats
            (s.data.filter (fun c => isWordChar c || isSpaceJs c))))))).data =
            titleCaseL (jsTrimL (collapseWs (replaceWords nameCleanupPats
            (s.data.filter (fun c => isWordChar c || isSpaceJs c))))) from rfl]
          rw [titleCaseL_idem]

/-- In rev 1 the output field `customerCleanName` is `cleanCustomerName` of
the request's name. -/
theorem handlerRev1_cleanName (pw : PostWorld) (key : Option String) (gf : GemFetch)
    (jp : JsonParse) (cache : Cache) (req : Request) (r : VRecord)
    (h : (handlerRev1 pw key gf jp cache req).res = HandlerResult.success r) :
    r.customerCleanName = cleanCustomerName req.customerName := by
  simp only [handlerRev1, rev1Tail, finishRun] at h
  split at h
  · split at h
    · simp at h
    · split at h
      case _ r' heq =>
        simp at h
        subst h
        exact (buildFinal_ok _ _ _ _ _ _ _ _ _ _ heq).2.2.1
      case _ m heq => simp at h
  · simp at h

/-- C10: `cleanCustomerName` — and hence the `customerCleanName` field of
every successful rev 1 record — is either `null` or a non-empty string fixed
by the Title-Case transform; it is never the empty string, even when
cleaning removes every character (the `cleaned || null` guard). -/
theorem c10_clean_name_invariant :
    (∀ name, cleanCustomerName name = none ∨
      ∃ s, cleanCustomerName name = some s ∧ s ≠ "" ∧ titleCaseStr s = s) ∧
    (∀ pw key gf jp cache req p,
      (handlerRev1 pw key gf jp cache req).res.record.map VRecord.customerCleanName =
        some p →
      p = cleanCustomerName req.customerName) := by
  refine ⟨cleanCustomerName_shape, ?_⟩
  intro pw key gf jp cache req p h
  cases hres : (handlerRev1 pw key gf jp cache req).res with
  | success r =>
    rw [hres] at h
    simp [HandlerResult.record] at h
    rw [← h]
    exact handlerRev1_cleanName pw key gf jp cache req r hres
  | badRequest m => rw [hres] at h; simp [HandlerResult.record] at h
  | serverError m => rw [hres] at h; simp [HandlerResult.record] at h

/-! ## PIN-shape lemmas -/

theorem sixDigitsAt_spec (prev : Option Char) (s ds : List Char)
    (h : sixDigitsAt prev s = some ds) : ds.length = 6 ∧ ds.all isDigitChar = true := by
  unfold sixDigitsAt at h
  simp only at h
  split at h
  · rename_i hcond
    cases h
    simp only [Bool.and_eq_true, decide_eq_true_eq] at hcond
    exact ⟨hcond.1.1.1, hcond.1.1.2⟩
  · cases h

theorem extractPinAux_spec : ∀ (prev : Option Char) (l ds : List Char),
    extractPinAux prev l = some ds → ds.length = 6 ∧ ds.all isDigitChar = true := by
  intro prev l
  induction l generalizing prev with
  | nil =>
    intro ds h
    exact sixDigitsAt_spec prev [] ds (by simpa [extractPinAux] using h)
  | cons c r ih =>
    intro ds h
    simp only [extractPinAux] at h
    cases hsd : sixDigitsAt prev (c :: r) with
    | some ds2 =>
      rw [hsd] at h
      cases h
      exact sixDigitsAt_spec prev (c :: r) _ hsd
    | none =>
      rw [hsd] at h
      exact ih (some c) ds h

theorem extractPin_six (a s : String) (h : extractPin a = some s) :
    isSixDigitString s = true := by
  unfold extractPin at h
  cases haux : extractPinAux none a.data with
  | none => rw [haux] at h; cases h
  | some ds =>
    rw [haux] at h
    simp only [Option.map_some'] at h
    cases h
    have hd := extractPinAux_spec none a.data ds haux
    simp [isSixDigitString, hd.1, hd.2]

/-- Rev 1: the pin-correction stage only ever emits the resolved pin or the
raw-extracted pin. -/
theorem pinStageRev1Core_finalPin (w : PostWorld) (c : Cache) (pp ip : Option String)
    (p0 : PinResult) :
    (pinStageRev1Core w c pp ip p0).finalPin = resolvePinRev1 pp ip ∨
    (pinStageRev1Core w c pp ip p0).finalPin = ip := by
  unfold pinStageRev1Core
  cases hres : resolvePinRev1 pp ip with
  | none => left; simp
  | some fp =>
    simp only
    split
    · split
      · left; simp
      · right; simp
    · left; simp

theorem pinStageRev1_finalPin (w : PostWorld) (c : Cache) (pp ip : Option String)
    (p0 : PinResult) :
    (pinStageRev1 w c pp ip p0).finalPin = resolvePinRev1 pp ip ∨
    (pinStageRev1 w c pp ip p0).finalPin = ip := by
  have h := pinStageRev1Core_finalPin w c pp ip p0
  simp only [pinStageRev1]
  split <;> simpa using h

theorem pinStageRev2_finalPin (w : PostWorld) (c : Cache) (pp ip : Option String)
    (p0 : PinResult) :
    (pinStageRev2 w c pp ip p0).finalPin = resolvePinRev2 pp ip ∨
    (pinStageRev2 w c pp ip p0).finalPin = ip := by
  unfold pinStageRev2
  cases hres : resolvePinRev2 pp ip with
  | none => right; simp
  | some fp =>
    simp only
    split
    · split
      · left; simp
      · right; simp
    · left; simp

theorem resolvePinRev1_spec (pp ip : Option String) :
    resolvePinRev1 pp ip = ip ∨
    ∃ s, resolvePinRev1 pp ip = some s ∧ isSixDigitString s = true := by
  unfold resolvePinRev1
  cases pp with
  | none => exact Or.inl rfl
  | some s =>
    by_cases h : isSixDigitString s = true
    · exact Or.inr ⟨s, by simp [h], h⟩
    · simp only [Bool.not_eq_true] at h
      exact Or.inl (by simp [h])

theorem resolvePinRev2_spec (pp ip : Option String) :
    resolvePinRev2 pp ip = ip ∨
    ∃ s, resolvePinRev2 pp ip = some s ∧ hasSixDigitRun s = true := by
  unfold resolvePinRev2
  cases pp with
  | none => exact Or.inl rfl
  | some s =>
    by_cases h : hasSixDigitRun s = true
    · exact Or.inr ⟨s, by simp [h], h⟩
    · simp only [Bool.not_eq_true] at h
      exact Or.inl (by simp [h])

/-- Rev 1 pin-shape: whatever the worlds do, the stage's final pin is null or
exactly six digits when the raw pin came from `extractPin`. -/
theorem pinStageRev1_pin_ok (w : PostWorld) (c : Cache) (pp : Option String)
    (a : String) (p0 : PinResult) :
    (pinStageRev1 w c pp (extractPin a) p0).finalPin = none ∨
    ∃ s, (pinStageRev1 w c pp (extractPin a) p0).finalPin = some s ∧
      isSixDigitString s = true := by
  have hip : extractPin a = none ∨
      ∃ s, extractPin a = some s ∧ isSixDigitString s = true := by
    cases h : extractPin a with
    | none => exact Or.inl rfl
    | some s => exact Or.inr ⟨s, rfl, extractPin_six a s h⟩
  rcases pinStageRev1_finalPin w c pp (extractPin a) p0 with hf | hf <;> rw [hf]
  · rcases resolvePinRev1_spec pp (extractPin a) with hr | ⟨s, hr, hs⟩
    · rw [hr]
      rcases hip with hip | ⟨s, hip, hs⟩
      · exact Or.inl hip
      · exact Or.inr ⟨s, hip, hs⟩
    · exact Or.inr ⟨s, hr, hs⟩
  · rcases hip with hip | ⟨s, hip, hs⟩
    · exact Or.inl hip
    · exact Or.inr ⟨s, hip, hs⟩

/-- Rev 2 pin-shape: null, six digits, or an Oracle string containing a
bounded six-digit run. -/
theorem pinStageRev2_pin_ok (w : PostWorld) (c : Cache) (pp : Option String)
    (a : String) (p0 : PinResult) :
    (pinStageRev2 w c pp (extractPin a) p0).finalPin = none ∨
    ∃ s, (pinStageRev2 w c pp (extractPin a) p0).finalPin = some s ∧
      (isSixDigitString s = true ∨ hasSixDigitRun s = true) := by
  have hip : extractPin a = none ∨
      ∃ s, extractPin a = some s ∧ isSixDigitString s = true := by
    cases h : extractPin a with
    | none => exact Or.inl rfl
    | some s => exact Or.inr ⟨s, rfl, extractPin_six a s h⟩
  rcases pinStageRev2_finalPin w c pp (extractPin a) p0 with hf | hf <;> rw [hf]
  · rcases resolvePinRev2_spec pp (extractPin a) with hr | ⟨s, hr, hs⟩
    · rw [hr]
      rcases hip with hip | ⟨s, hip, hs⟩
      · exact Or.inl hip
      · exact Or.inr ⟨s, hip, Or.inl hs⟩
    · exact Or.inr ⟨s, hr, Or.inr hs⟩
  · rcases hip with hip | ⟨s, hip, hs⟩
    · exact Or.inl hip
    · exact Or.inr ⟨s, hip, Or.inl hs⟩

/-! ## C2 — PIN format invariant of the output record -/

/-- C2 counterexample: the claim says the output `pin` is never a string of
other length, including when the Oracle returns a PIN that merely contains a
6-digit substring inside a longer string.  Rev 2 checks the Oracle PIN with
the unanchored `\b\d{6}\b` and then keeps the whole string: with the Oracle
returning "110001 India" and the postal service verifying that query, the
record's pin is "110001 India" (12 characters). -/
theorem c2_cx :
    (handlerRev2 pwWeird (some "k") gfReply jpC2 []
      { address := some "Some Street Pune", customerName := some "Asha" }).res.record.map
        VRecord.pin = some (some "110001 India") ∧
    isSixDigitString "110001 India" = false := by
  constructor
  · rfl
  · decide

/-- C2 amended: in rev 1 (anchored `^\d{6}$` check) every successful record
has `pin` null or exactly six ASCII digits; in rev 2 (unanchored `\b\d{6}\b`
check) the pin may additionally be the Oracle's longer string containing a
bounded six-digit run — the claimed invariant does not hold there. -/
theorem handlerRev1_pin_shape (pw : PostWorld) (key : Option String) (gf : GemFetch)
    (jp : JsonParse) (cache : Cache) (req : Request) (r : VRecord)
    (h : (handlerRev1 pw key gf jp cache req).res = HandlerResult.success r) :
    r.pin = none ∨ ∃ s, r.pin = some s ∧ isSixDigitString s = true := by
  simp only [handlerRev1, rev1Tail, finishRun] at h
  split at h
  · split at h
    · simp at h
    · split at h
      case _ r' heq =>
        simp at h
        subst h
        rw [(buildFinal_ok _ _ _ _ _ _ _ _ _ _ heq).1]
        exact pinStageRev1_pin_ok _ _ _ _ _
      case _ m heq => simp at h
  · simp at h

theorem handlerRev2_pin_shape (pw : PostWorld) (key : Option String) (gf : GemFetch)
    (jp : JsonParse) (cache : Cache) (req : Request) (r : VRecord)
    (h : (handlerRev2 pw key gf jp cache req).res = HandlerResult.success r) :
    r.pin = none ∨ ∃ s, r.pin = some s ∧
      (isSixDigitString s = true ∨ hasSixDigitRun s = true) := by
  simp only [handlerRev2, rev2Tail, finishRun] at h
  split at h
  · split at h
    case _ m heq => simp at h
    case _ cl heq =>
      split at h
      · simp at h
      · split at h
        case _ m heq2 => simp at h
        case _ rs heq2 =>
          split at h
          case _ r' heq3 =>
            simp at h
            subst h
            rw [(buildFinal_ok _ _ _ _ _ _ _ _ _ _ heq3).1]
            exact pinStageRev2_pin_ok _ _ _ _ _
          case _ m heq3 => simp at h
  · simp at h

theorem c2_pin_shape :
    (∀ pw key gf jp cache req p,
      (handlerRev1 pw key gf jp cache req).res.record.map VRecord.pin = some p →
      p = none ∨ ∃ s, p = some s ∧ isSixDigitString s = true) ∧
    (∀ pw key gf jp cache req p,
      (handlerRev2 pw key gf jp cache req).res.record.map VRecord.pin = some p →
      p = none ∨ ∃ s, p = some s ∧
        (isSixDigitString s = true ∨ hasSixDigitRun s = true)) := by
  constructor
  · intro pw key gf jp cache req p h
    cases hres : (handlerRev1 pw key gf jp cache req).res with
    | success r =>
      rw [hres] at h
      simp [HandlerResult.record] at h
      rw [← h]
      exact handlerRev1_pin_shape pw key gf jp cache req r hres
    | badRequest m => rw [hres] at h; simp [HandlerResult.record] at h
    | serverError m => rw [hres] at h; simp [HandlerResult.record] at h
  · intro pw key gf jp cache req p h
    cases hres : (handlerRev2 pw key gf jp cache req).res with
    | success r =>
      rw [hres] at h
      simp [HandlerResult.record] at h
      rw [← h]
      exact handlerRev2_pin_shape pw key gf jp cache req r hres
    | badRequest m => rw [hres] at h; simp [HandlerResult.record] at h
    | serverError m => rw [hres] at h; simp [HandlerResult.record] at h

theorem c2_pin_shape_witness :
    (handlerRev1 pwPune (some "k") gfReply jpC4 []
      { address := some "12 MG Road 411001", customerName := some "Asha Rao" }).res.record.map
        VRecord.pin = some (some "411001") ∧
    (some "411001" = (none : Option String) ∨
      ∃ s, some "411001" = some s ∧ isSixDigitString s = true) :=
  ⟨rfl, c2_pin_shape.1 pwPune (some "k") gfReply jpC4 []
    { address := some "12 MG Road 411001", customerName := some "Asha Rao" }
    (some "411001") rfl⟩

theorem c10_clean_name_invariant_witness :
    (handlerRev1 pwPune (some "k") gfReply jpC4 []
      { address := some "12 MG Road 411001", customerName := some "mr ASHA rao" }).res.record.map
        VRecord.customerCleanName = some (some "Asha Rao") ∧
    some "Asha Rao" = cleanCustomerName (some "mr ASHA rao") :=
  ⟨rfl, c10_clean_name_invariant.2 pwPune (some "k") gfReply jpC4 []
    { address := some "12 MG Road 411001", customerName := some "mr ASHA rao" }
    (some "Asha Rao") rfl⟩

/-! ## C9 — behavior when `customerName` is absent -/

/-- The response kind produced by `finishRun` does not depend on the name
arguments or the log. -/
theorem finishRun_kind (address : String) (f : String → String)
    (cn1 cl1 cn2 cl2 : Option String) (pd : ParsedData) (fp : Option String)
    (prim : PORef) (lm : String) (rem : List String) (c1 c2 : Cache)
    (log1 log2 : RunLog) :
    (finishRun address f cn1 cl1 pd fp prim lm rem c1 log1).res.kind =
    (finishRun address f cn2 cl2 pd fp prim lm rem c2 log2).res.kind := by
  cases prim <;> simp [finishRun, buildFinal, HandlerResult.kind]

/-- C9 counterexample: with identical worlds and address, the rev 2 handler
returns 500 when `customerName` is absent (the unguarded
`customerName.replace` throws) and a success record when it is present — so
the absence of the optional `customerName` does cause an error response. -/
theorem c9_cx :
    (handlerRev2 pwDown (some "k") gfReply jpC3 []
      { address := some "Flat 5 500001", customerName := none }).res =
      HandlerResult.serverError
        "Internal Server Error: Cannot read properties of undefined (reading replace)" ∧
    (handlerRev2 pwDown (some "k") gfReply jpC3 []
      { address := some "Flat 5 500001", customerName := some "A" }).res.kind = 2 := by
  exact ⟨rfl, rfl⟩

/-- C9 amended: in rev 1 (`cleanCustomerName` is null-guarded) the absence of
`customerName` never changes which kind of response is produced — the run
with no name has exactly the same outcome kind as the same run with any
name.  In rev 2 the unguarded `customerName.replace` throws for every
request with a missing name, which the outer catch turns into a 500
"Internal Server Error" response. -/
theorem c9_missing_name :
    (∀ pw key gf jp cache addr nm,
      (handlerRev1 pw key gf jp cache
        { address := addr, customerName := none }).res.kind =
      (handlerRev1 pw key gf jp cache
        { address := addr, customerName := some nm }).res.kind) ∧
    (∀ pw key gf jp cache addr, addr ≠ "" →
      (handlerRev2 pw key gf jp cache
        { address := some addr, customerName := none }).res =
      HandlerResult.serverError
        "Internal Server Error: Cannot read properties of undefined (reading replace)") := by
  constructor
  · intro pw key gf jp cache addr nm
    simp only [handlerRev1]
    split
    · split
      · rfl
      · exact finishRun_kind _ _ _ _ _ _ _ _ _ _ _ _ _ _ _
    · rfl
  · intro pw key gf jp cache addr ha
    simp only [handlerRev2]
    rw [if_pos (by simp [strTruthy, ha])]
    simp [cleanedNameRev2]

theorem c9_missing_name_witness :
    "Flat 5 500001" ≠ "" ∧
    (handlerRev2 pwDown (some "k") gfReply jpC3 []
      { address := some "Flat 5 500001", customerName := none }).res =
      HandlerResult.serverError
        "Internal Server Error: Cannot read properties of undefined (reading replace)" :=
  ⟨by decide, c9_missing_name.2 pwDown (some "k") gfReply jpC3 [] "Flat 5 500001" (by decide)⟩

/-! ## C8 — landmark directional-prefix formatting -/

/-- C8 counterexample: the claim says the prefix is the qualifier's original
casing from the raw address whenever the qualifier occurs as a
case-insensitive substring.  In "BEHINDx school" the qualifier occurs (as a
substring of "BEHINDx") in casing "BEHIND", but the code's second, word-
bounded search fails there and falls back to the lowercase keyword, so the
landmark is "Behind School" rather than the claimed "BEHIND School". -/
theorem c8_cx :
    isSubstr "behind" (lowerStr "BEHINDx school") = true ∧
    directionalLandmark "BEHINDx school" (some "School") = "Behind School" ∧
    "Behind School" ≠ "BEHIND School" := by
  refine ⟨by decide, by rfl, by decide⟩

/-- C8 amended: for a landmark that is non-blank after trimming, the output
is prefix ++ " " ++ trimmed landmark, where the prefix is "Near" when no
directional keyword is a case-insensitive substring of the address, and
otherwise derives from the first keyword found (array order): the original
casing of its first word-bounded occurrence, first letter capitalized — or
the capitalized lowercase keyword itself when no word-bounded occurrence
exists (the case the original claim gets wrong).  A blank landmark yields an
empty landmark field. -/
theorem c8_landmark_format :
    (∀ address lm,
      jsTrim (strOr lm "") ≠ "" →
      directionalKeywords.find? (fun kw => isSubstr kw (lowerStr address)) = none →
      directionalLandmark address lm = "Near " ++ jsTrim (strOr lm "")) ∧
    (∀ address lm kw mc,
      jsTrim (strOr lm "") ≠ "" →
      directionalKeywords.find? (fun kw => isSubstr kw (lowerStr address)) = some kw →
      findBoundedCi (litPat kw) none address.data = some mc →
      directionalLandmark address lm =
        String.mk (capFirst mc) ++ " " ++ jsTrim (strOr lm "")) ∧
    (∀ address lm kw,
      jsTrim (strOr lm "") ≠ "" →
      directionalKeywords.find? (fun kw => isSubstr kw (lowerStr address)) = some kw →
      findBoundedCi (litPat kw) none address.data = none →
      directionalLandmark address lm =
        String.mk (capFirst kw.data) ++ " " ++ jsTrim (strOr lm "")) ∧
    (∀ address lm, jsTrim (strOr lm "") = "" → directionalLandmark address lm = "") := by
  refine ⟨?_, ?_, ?_, ?_⟩
  · intro address lm h1 h2
    simp [directionalLandmark, h1, h2]
  · intro address lm kw mc h1 h2 h3
    simp [directionalLandmark, h1, h2, h3]
  · intro address lm kw h1 h2 h3
    simp [directionalLandmark, h1, h2, h3]
  · intro address lm h1
    simp [directionalLandmark, h1]

theorem c8_landmark_format_witness :
    jsTrim (strOr (some "Temple") "") ≠ "" ∧
    directionalKeywords.find? (fun kw => isSubstr kw (lowerStr "Plain address")) = none ∧
    directionalLandmark "Plain address" (some "Temple") =
      "Near " ++ jsTrim (strOr (some "Temple") "") :=
  ⟨by decide, by decide,
    c8_landmark_format.1 "Plain address" (some "Temple") (by decide) (by decide)⟩

/-! ## Helper lemmas for full-run theorems -/

theorem strOr_self (x : String) : strOr (some x) x = x := by
  simp [strOr]

theorem resolvePinRev1_self (ip : Option String) : resolvePinRev1 ip ip = ip := by
  cases ip with
  | none => rfl
  | some s =>
    show (if isSixDigitString s = true then some s else some s) = some s
    split <;> rfl

theorem resolvePinRev2_self (ip : Option String) : resolvePinRev2 ip ip = ip := by
  cases ip with
  | none => rfl
  | some s =>
    show (if hasSixDigitRun s = true then some s else some s) = some s
    split <;> rfl

/-- A repeated lookup is served from the cache with the identical result. -/
theorem getIndiaPostData_again (w : PostWorld) (c : Cache) (p : String) :
    (getIndiaPostData w (getIndiaPostData w c p).2.1 p).1 = (getIndiaPostData w c p).1 := by
  unfold getIndiaPostData
  cases h : c.lookup p with
  | some r => simp [h]
  | none => simp [h, List.lookup]

theorem getIndiaPostData_ne (w : PostWorld) (c : Cache) (p : String)
    (hw : PostWorldOk w) (hc : CacheOk c) :
    (getIndiaPostData w c p).1 ≠ PinResult.success [] := by
  unfold getIndiaPostData
  cases h : c.lookup p with
  | some r => simpa using hc p r h
  | none => simpa using hw p


/-! ## C1 — degraded-but-complete on Oracle JSON parse failure -/

theorem getIndiaPostData_cacheOk (w : PostWorld) (c : Cache) (p : String)
    (hw : PostWorldOk w) (hc : CacheOk c) :
    CacheOk (getIndiaPostData w c p).2.1 := by
  unfold getIndiaPostData
  cases h : c.lookup p with
  | some r => simpa using hc
  | none =>
    simp only
    intro q r hq
    simp only [List.lookup] at hq
    split at hq
    · cases hq
      exact hw p
    · exact hc q r hq

theorem firstLookup_ne (pw : PostWorld) (cache : Cache) (hw : PostWorldOk pw)
    (hc : CacheOk cache) (ip : Option String) :
    (match ip with
      | some p => getIndiaPostData pw cache p
      | none => (PinResult.error, cache, 0)).1 ≠ PinResult.success [] := by
  cases ip with
  | none => simp
  | some p => simpa using getIndiaPostData_ne pw cache p hw hc

theorem firstLookup_cacheOk (pw : PostWorld) (cache : Cache) (hw : PostWorldOk pw)
    (hc : CacheOk cache) (ip : Option String) :
    CacheOk (match ip with
      | some p => getIndiaPostData pw cache p
      | none => (PinResult.error, cache, 0)).2.1 := by
  cases ip with
  | none => simpa using hc
  | some p => simpa using getIndiaPostData_cacheOk pw cache p hw hc

theorem firstLookup_again (pw : PostWorld) (cache : Cache) (ip : Option String) :
    ∀ p, ip = some p →
      (getIndiaPostData pw (match ip with
        | some q => getIndiaPostData pw cache q
        | none => (PinResult.error, cache, 0)).2.1 p).1 =
      (match ip with
        | some q => getIndiaPostData pw cache q
        | none => (PinResult.error, cache, 0)).1 := by
  cases ip with
  | none => intro p h; cases h
  | some q =>
    intro p h
    cases h
    simpa using getIndiaPostData_again pw cache q

/-- Rev 1 tail under a JSON parse failure: success, worst quality, noise-
stripped address line, and the critical remark is in the log. -/
theorem rev1Tail_parse_fail (pw : PostWorld) (jp : JsonParse) (cn : Option String)
    (addr t : String) (ip : Option String) (fst : PinResult × Cache × Nat)
    (hp : jp (cleanJsonText t) = none)
    (hfst : fst.1 ≠ PinResult.success []) :
    (rev1Tail pw jp cn addr t ip fst).res.kind = 2 ∧
    (rev1Tail pw jp cn addr t ip fst).res.record.map VRecord.addressQuality =
      some "Very Bad" ∧
    (rev1Tail pw jp cn addr t ip fst).res.record.map VRecord.addressLine1 =
      some (jsTrim (stripNoiseRev1 addr)) ∧
    parseFailRemark t ∈ (rev1Tail pw jp cn addr t ip fst).log.remarksList := by
  obtain ⟨p1, pc, pn⟩ := fst
  simp only at hfst
  simp only [rev1Tail, parseGemini, hp]
  cases ip with
  | none =>
    cases p1 with
    | success l =>
      cases l with
      | nil => exact absurd rfl hfst
      | cons o rest =>
        simp [fallbackParsed, pinStageRev1, pinStageRev1Core, resolvePinRev1, primaryOf,
          finishRun, buildFinal, strOr, strOr_self, HandlerResult.kind,
          HandlerResult.record, PinResult.isSuccess]
    | error =>
      simp [fallbackParsed, pinStageRev1, pinStageRev1Core, resolvePinRev1, primaryOf,
        finishRun, buildFinal, strOr, strOr_self, HandlerResult.kind,
        HandlerResult.record, PinResult.isSuccess]
  | some p =>
    cases p1 with
    | success l =>
      cases l with
      | nil => exact absurd rfl hfst
      | cons o rest =>
        simp [fallbackParsed, pinStageRev1, pinStageRev1Core, resolvePinRev1_self,
          primaryOf, finishRun, buildFinal, strOr, strOr_self, HandlerResult.kind,
          HandlerResult.record, PinResult.isSuccess]
    | error =>
      simp [fallbackParsed, pinStageRev1, pinStageRev1Core, resolvePinRev1_self,
        primaryOf, finishRun, buildFinal, strOr, strOr_self, HandlerResult.kind,
        HandlerResult.record, PinResult.isSuccess]

/-- Rev 2 tail under a JSON parse failure (the `hagain` hypothesis records
that re-looking-up the raw pin against the post-lookup cache reproduces the
first outcome — true of the caching lookup). -/
theorem rev2Tail_parse_fail (pw : PostWorld) (jp : JsonParse) (cn cl : Option String)
    (addr t : String) (ip : Option String) (fst : PinResult × Cache × Nat)
    (hp : jp (cleanJsonText t) = none)
    (hfst : fst.1 ≠ PinResult.success [])
    (hagain : ∀ p, ip = some p → (getIndiaPostData pw fst.2.1 p).1 = fst.1) :
    (rev2Tail pw jp cn cl addr t ip fst).res.kind = 2 ∧
    (rev2Tail pw jp cn cl addr t ip fst).res.record.map VRecord.addressQuality =
      some "Very Bad" ∧
    (rev2Tail pw jp cn cl addr t ip fst).res.record.map VRecord.addressLine1 =
      some (jsTrim (stripNoiseRev2 addr)) ∧
    parseFailRemark t ∈ (rev2Tail pw jp cn cl addr t ip fst).log.remarksList := by
  obtain ⟨p1, pc, pn⟩ := fst
  simp only at hfst hagain
  simp only [rev2Tail, parseGemini, hp]
  cases ip with
  | none =>
    cases p1 with
    | success l =>
      cases l with
      | nil => exact absurd rfl hfst
      | cons o rest =>
        simp [fallbackParsed, pinStageRev2, resolvePinRev2, primaryOf, primaryOrEmpty,
          finishRun, buildFinal, deepChecksRev2, remainingRemarksRev2, strOr, strOr_self,
          HandlerResult.kind, HandlerResult.record, PinResult.isSuccess, strTruthy]
    | error =>
      simp [fallbackParsed, pinStageRev2, resolvePinRev2, primaryOf, primaryOrEmpty,
        finishRun, buildFinal, deepChecksRev2, remainingRemarksRev2, strOr, strOr_self,
        HandlerResult.kind, HandlerResult.record, PinResult.isSuccess, strTruthy]
  | some p =>
    cases p1 with
    | success l =>
      cases l with
      | nil => exact absurd rfl hfst
      | cons o rest =>
        simp [fallbackParsed, pinStageRev2, resolvePinRev2_self, primaryOf,
          primaryOrEmpty, finishRun, buildFinal, deepChecksRev2, remainingRemarksRev2,
          strOr, strOr_self, HandlerResult.kind, HandlerResult.record,
          PinResult.isSuccess]
    | error =>
      have hA : (getIndiaPostData pw pc p).1 = PinResult.error := hagain p rfl
      simp [fallbackParsed, pinStageRev2, resolvePinRev2_self, primaryOf,
        primaryOrEmpty, finishRun, buildFinal, deepChecksRev2, remainingRemarksRev2,
        strOr, strOr_self, HandlerResult.kind, HandlerResult.record,
        PinResult.isSuccess, hA]

/-- C1: for a non-empty address, when the Gemini call yields text that fails
JSON parsing (after code-fence stripping), both revisions still return a
success record whose quality is the worst tier "Very Bad", whose address
line is the noise-stripped raw address, and whose remark log contains the
critical JSON-parse-failure remark — the handler does not throw for this
failure mode.  (The postal world is assumed never to report Success with an
empty office list — the real service's behavior — and rev 2 additionally
needs `customerName` present, since a missing name throws there for every
request: see C9.) -/
theorem c1_parse_failure_degraded (pw : PostWorld) (key : Option String) (gf : GemFetch)
    (jp : JsonParse) (cache : Cache) (addr t : String) (nm : Option String) (nm2 : String)
    (hw : PostWorldOk pw) (hc : CacheOk cache) (ha : addr ≠ "")
    (he : (getGeminiCore key gf).error = none)
    (ht : (getGeminiCore key gf).text = some t) (htne : t ≠ "")
    (hp : jp (cleanJsonText t) = none) :
    ((handlerRev1 pw key gf jp cache { address := some addr, customerName := nm }).res.kind = 2 ∧
      (handlerRev1 pw key gf jp cache { address := some addr, customerName := nm }).res.record.map
        VRecord.addressQuality = some "Very Bad" ∧
      (handlerRev1 pw key gf jp cache { address := some addr, customerName := nm }).res.record.map
        VRecord.addressLine1 = some (jsTrim (stripNoiseRev1 addr)) ∧
      parseFailRemark t ∈
        (handlerRev1 pw key gf jp cache
          { address := some addr, customerName := nm }).log.remarksList) ∧
    ((handlerRev2 pw key gf jp cache
        { address := some addr, customerName := some nm2 }).res.kind = 2 ∧
      (handlerRev2 pw key gf jp cache
        { address := some addr, customerName := some nm2 }).res.record.map
        VRecord.addressQuality = some "Very Bad" ∧
      (handlerRev2 pw key gf jp cache
        { address := some addr, customerName := some nm2 }).res.record.map
        VRecord.addressLine1 = some (jsTrim (stripNoiseRev2 addr)) ∧
      parseFailRemark t ∈
        (handlerRev2 pw key gf jp cache
          { address := some addr, customerName := some nm2 }).log.remarksList) := by
  constructor
  · simp only [handlerRev1]
    rw [if_pos (show strTruthy ({ address := some addr, customerName := nm } : Request).address =
      true by simp [strTruthy, ha])]
    rw [he, ht]
    rw [if_neg (show ¬ (strTruthy none = true ∨ ¬ strTruthy (some t) = true) by
      simp [strTruthy, htne])]
    simp only [Option.getD_some]
    exact rev1Tail_parse_fail pw jp nm addr t (extractPin addr) _ hp
      (firstLookup_ne pw cache hw hc (extractPin addr))
  · simp only [handlerRev2]
    rw [if_pos (show strTruthy ({ address := some addr, customerName := some nm2 } :
      Request).address = true by simp [strTruthy, ha])]
    simp only [cleanedNameRev2]
    rw [he, ht]
    rw [if_neg (show ¬ (strTruthy none = true ∨ ¬ strTruthy (some t) = true) by
      simp [strTruthy, htne])]
    simp only [Option.getD_some]
    exact rev2Tail_parse_fail pw jp (some nm2) _ addr t (extractPin addr) _ hp
      (firstLookup_ne pw cache hw hc (extractPin addr))
      (firstLookup_again pw cache (extractPin addr))

/-- C1 witness: concrete run with a good postal world, a Gemini reply
"oracle-reply" that fails JSON parsing, and a non-empty address. -/
theorem c1_parse_failure_degraded_witness :
    (PostWorldOk pwPune ∧ CacheOk ([] : Cache) ∧ ("12 MG Road, Pune" : String) ≠ "" ∧
      (getGeminiCore (some "k") gfReply).error = none ∧
      (getGeminiCore (some "k") gfReply).text = some "oracle-reply" ∧
      ("oracle-reply" : String) ≠ "" ∧
      jpFail (cleanJsonText "oracle-reply") = none) ∧
    (handlerRev1 pwPune (some "k") gfReply jpFail []
      { address := some "12 MG Road, Pune", customerName := some "ram" }).res.kind = 2 ∧
    (handlerRev2 pwPune (some "k") gfReply jpFail []
      { address := some "12 MG Road, Pune", customerName := some "shyam" }).res.kind = 2 := by
  have hw : PostWorldOk pwPune := by
    intro pin
    by_cases h : pin = "411001" <;> simp [pwPune, postFetchResult, h]
  have hc : CacheOk ([] : Cache) := by
    intro pin r h
    simp [List.lookup] at h
  have main := c1_parse_failure_degraded pwPune (some "k") gfReply jpFail []
    "12 MG Road, Pune" "oracle-reply" (some "ram") "shyam" hw hc (by decide)
    rfl rfl (by decide) rfl
  exact ⟨⟨hw, hc, by decide, rfl, rfl, by decide, rfl⟩, main.1.1, main.2.1⟩

/-! ## C3 — second-lookup condition and PIN-correction remarks -/

/-- C3 counterexample: the claim says identical resolved/extracted PINs skip
the second lookup.  In rev 2 the re-lookup also fires when the first lookup
did not verify: here the Oracle returns exactly the extracted pin "500001",
yet the log shows a second lookup (two lookups, one outbound call — the
second hits the cache seeded by the first). -/
theorem c3_cx :
    (handlerRev2 pwDown (some "k") gfReply jpC3 []
      { address := some "Flat 5 500001", customerName := some "A" }).log.resolvedPin =
        some "500001" ∧
    (handlerRev2 pwDown (some "k") gfReply jpC3 []
      { address := some "Flat 5 500001", customerName := some "A" }).log.initialPin =
        some "500001" ∧
    (handlerRev2 pwDown (some "k") gfReply jpC3 []
      { address := some "Flat 5 500001", customerName := some "A" }).log.aiLookup.isSome =
        true ∧
    (handlerRev2 pwDown (some "k") gfReply jpC3 []
      { address := some "Flat 5 500001", customerName := some "A" }).log.lookupCalls = 2 :=
  ⟨rfl, rfl, rfl, rfl⟩

/-- C3 (amended): in rev 1 the second lookup fires exactly when a pin
resolved and it differs from the raw-extracted one; on a verified second
lookup its reference becomes authoritative, the final pin is the corrected
one, and the correction remark is logged (worded "PIN (X) was incorrect.
Corrected to (Y) and verified.", not the spec text); on a failed second
lookup the pin reverts to the extracted one with a reverting alert; with no
resolvable pin the manual-check alert is logged.  In rev 2 the second-lookup
condition is weaker: it also fires when the first lookup did not verify,
even for identical pins. -/
theorem c3_pin_correction (w : PostWorld) (c : Cache) (pp ip : Option String)
    (p0 : PinResult) :
    ((pinStageRev1 w c pp ip p0).aiLookup.isSome = true ↔
      (resolvePinRev1 pp ip).isSome = true ∧ resolvePinRev1 pp ip ≠ ip) ∧
    (∀ fp l, resolvePinRev1 pp ip = some fp → some fp ≠ ip →
      (getIndiaPostData w c fp).1 = PinResult.success l →
      (pinStageRev1 w c pp ip p0).postal = PinResult.success l ∧
      (pinStageRev1 w c pp ip p0).finalPin = some fp ∧
      (match ip with
        | some i =>
          "PIN (" ++ i ++ ") was incorrect. Corrected to (" ++ fp ++ ") and verified."
        | none => "Correct PIN (" ++ fp ++ ") inferred by AI and verified.") ∈
        (pinStageRev1 w c pp ip p0).remarks) ∧
    (∀ fp, resolvePinRev1 pp ip = some fp → some fp ≠ ip →
      (getIndiaPostData w c fp).1 = PinResult.error →
      (pinStageRev1 w c pp ip p0).finalPin = ip ∧
      "CRITICAL_ALERT: AI-provided PIN (" ++ fp ++
          ") not verified by API. Reverting to original PIN (" ++ strOr ip "N/A" ++ ")." ∈
        (pinStageRev1 w c pp ip p0).remarks) ∧
    (resolvePinRev1 pp ip = none →
      "CRITICAL_ALERT: PIN not found after verification attempts. Manual check needed." ∈
        (pinStageRev1 w c pp ip p0).remarks) ∧
    ((pinStageRev2 w c pp ip p0).aiLookup.isSome = true ↔
      (resolvePinRev2 pp ip).isSome = true ∧
        (¬ p0.isSuccess = true ∨ (ip.isSome = true ∧ resolvePinRev2 pp ip ≠ ip))) := by
  refine ⟨?_, ?_, ?_, ?_, ?_⟩
  · cases hR : resolvePinRev1 pp ip with
    | none => simp [pinStageRev1, pinStageRev1Core, hR]
    | some fp =>
      by_cases hni : (some fp : Option String) = ip
      · subst hni
        simp [pinStageRev1, pinStageRev1Core, hR]
      · cases hres : (getIndiaPostData w c fp).1 with
        | success l =>
          simp only [pinStageRev1, pinStageRev1Core, hR, hres]
          rw [if_pos hni]
          simp [hni]
        | error =>
          simp only [pinStageRev1, pinStageRev1Core, hR, hres]
          rw [if_pos hni]
          split <;> simp [hni]
  · intro fp l hR hne hres
    simp only [pinStageRev1, pinStageRev1Core, hR, hres]
    rw [if_pos hne]
    simp
  · intro fp hR hne hres
    simp only [pinStageRev1, pinStageRev1Core, hR, hres]
    rw [if_pos hne]
    split <;> simp
  · intro hR
    simp [pinStageRev1, pinStageRev1Core, hR]
  · cases hR : resolvePinRev2 pp ip with
    | none => simp [pinStageRev2, hR]
    | some fp =>
      by_cases hcond : (¬ p0.isSuccess = true ∨ (ip.isSome = true ∧ (some fp : Option String) ≠ ip))
      · cases hres : (getIndiaPostData w c fp).1 with
        | success l =>
          simp only [pinStageRev2, hR, hres]
          rw [if_pos hcond]
          simp
          simpa using hcond
        | error =>
          simp only [pinStageRev2, hR, hres]
          rw [if_pos hcond]
          simp
          simpa using hcond
      · simp only [pinStageRev2, hR]
        rw [if_neg hcond]
        push_neg at hcond
        simp
        exact hcond

/-- C3 witness: a verified correction in rev 1 (wrong extracted pin 999999,
Oracle pin 411001 verified by the world) and the rev 2 identical-pin
re-lookup at a failing world. -/
theorem c3_pin_correction_witness :
    (pinStageRev1 pwPune [] (some "411001") (some "999999") PinResult.error).postal =
      PinResult.success [normPO cxOffice] ∧
    (pinStageRev2 pwDown [] (some "500001") (some "500001") PinResult.error).aiLookup.isSome =
      true := by
  refine ⟨((c3_pin_correction pwPune [] (some "411001") (some "999999")
      PinResult.error).2.1 "411001" [normPO cxOffice] rfl (by decide) rfl).1, ?_⟩
  exact ((c3_pin_correction pwDown [] (some "500001") (some "500001")
      PinResult.error).2.2.2.2).mpr ⟨by decide, Or.inl (by decide)⟩

/-! ## C4 — geographic field selection in the final response -/

theorem finishRun_log (address : String) (f : String → String) (cn cl : Option String)
    (pd : ParsedData) (fp : Option String) (prim : PORef) (lm : String)
    (rem : List String) (cache : Cache) (log : RunLog) :
    (finishRun address f cn cl pd fp prim lm rem cache log).log = log := by
  unfold finishRun
  split <;> rfl

/-- Field selection of the assembled response, per shape of the primary
postal reference: each geographic field independently prefers the office
value and falls back to the Oracle value when the office value is empty. -/
theorem finishRun_geo (address : String) (f : String → String) (cn cl : Option String)
    (pd : ParsedData) (fp : Option String) (prim : PORef) (lm : String)
    (rem : List String) (cache : Cache) (log : RunLog) :
    (∀ o, prim = PORef.office o →
      (finishRun address f cn cl pd fp prim lm rem cache log).res.record.map
          VRecord.postOffice = some (strOr (some o.name) (strOr pd.po "")) ∧
      (finishRun address f cn cl pd fp prim lm rem cache log).res.record.map
          VRecord.tehsil = some (strOr (some o.taluk) (strOr pd.tehsil "")) ∧
      (finishRun address f cn cl pd fp prim lm rem cache log).res.record.map
          VRecord.district = some (strOr (some o.district) (strOr pd.distDot "")) ∧
      (finishRun address f cn cl pd fp prim lm rem cache log).res.record.map
          VRecord.state = some (strOr (some o.state) (strOr pd.state ""))) ∧
    (prim = PORef.emptyObj →
      (finishRun address f cn cl pd fp prim lm rem cache log).res.record.map
          VRecord.postOffice = some (strOr pd.po "") ∧
      (finishRun address f cn cl pd fp prim lm rem cache log).res.record.map
          VRecord.tehsil = some (strOr pd.tehsil "") ∧
      (finishRun address f cn cl pd fp prim lm rem cache log).res.record.map
          VRecord.district = some (strOr pd.distDot "") ∧
      (finishRun address f cn cl pd fp prim lm rem cache log).res.record.map
          VRecord.state = some (strOr pd.state "")) ∧
    (prim ≠ PORef.undef →
      (finishRun address f cn cl pd fp prim lm rem cache log).res.record.map
          VRecord.addressLine1 = some (strOr pd.formattedAddress (jsTrim (f address))) ∧
      (finishRun address f cn cl pd fp prim lm rem cache log).res.record.map
          VRecord.landmark = some lm) := by
  cases prim with
  | undef =>
    refine ⟨?_, ?_, ?_⟩
    · intro o ho; cases ho
    · intro ho; cases ho
    · intro hne; exact absurd rfl hne
  | emptyObj =>
    refine ⟨?_, ?_, ?_⟩
    · intro o ho; cases ho
    · intro _
      simp [finishRun, buildFinal, HandlerResult.record, strOr]
    · intro _
      simp [finishRun, buildFinal, HandlerResult.record]
  | office o =>
    refine ⟨?_, ?_, ?_⟩
    · intro o2 ho
      cases ho
      simp [finishRun, buildFinal, HandlerResult.record]
    · intro ho; cases ho
    · intro _
      simp [finishRun, buildFinal, HandlerResult.record]

/-- The rev 2 deep checks throw only on an undefined primary office. -/
theorem deepChecksRev2_ok (address : String) (pd : ParsedData) (fp : Option String)
    (postal : PinResult) (prim : PORef) (h : prim ≠ PORef.undef) :
    ∃ l, deepChecksRev2 address pd fp postal prim = Except.ok l := by
  cases prim with
  | undef => exact absurd rfl h
  | emptyObj => exact ⟨_, rfl⟩
  | office o => exact ⟨_, rfl⟩

/-- C4 counterexample: the claim says a Verified reference overrides the
Oracle values for the four geographic fields.  Here the final PIN has a
Verified reference whose first office has an empty `Name`, and the output
`postOffice` is the Oracle free-text value instead — the override is
per-field, not per-reference. -/
theorem c4_cx :
    (handlerRev1 pwPuneNoName (some "k") gfReply jpC4 []
      { address := some "12 MG Road 411001", customerName := some "ram" }).log.finalPostal =
        PinResult.success [normPO cxOfficeNoName] ∧
    (handlerRev1 pwPuneNoName (some "k") gfReply jpC4 []
      { address := some "12 MG Road 411001", customerName := some "ram" }).log.primary =
        PORef.office (normPO cxOfficeNoName) ∧
    (handlerRev1 pwPuneNoName (some "k") gfReply jpC4 []
      { address := some "12 MG Road 411001", customerName := some "ram" }).res.record.map
        VRecord.postOffice = some "P.O. Shivajinagar" :=
  ⟨rfl, rfl, rfl⟩

/-- C4 (amended): in both revisions, when the Oracle reply parses, each of
the four geographic fields independently prefers the corresponding field of
the primary office of the postal reference in effect and falls back to the
corresponding Oracle free-text value when that office field is empty (with a
final fallback ""); with no office in effect (`{}` primary) the Oracle
values are used; and whenever the run completes, `addressLine1` is the
Oracle formatted address with fallback to the noise-stripped raw address
exactly when the former is empty, and `landmark` is the directional-prefix
assembly of the Oracle landmark. -/
theorem c4_geo_fields (pw : PostWorld) (key : Option String) (gf : GemFetch)
    (jp : JsonParse) (cache : Cache) (addr t : String) (pd : ParsedData)
    (nm : Option String) (nm2 : String)
    (ha : addr ≠ "")
    (he : (getGeminiCore key gf).error = none)
    (ht : (getGeminiCore key gf).text = some t) (htne : t ≠ "")
    (hp : jp (cleanJsonText t) = some pd) :
    ((∀ o, (handlerRev1 pw key gf jp cache
        { address := some addr, customerName := nm }).log.primary = PORef.office o →
      (handlerRev1 pw key gf jp cache
          { address := some addr, customerName := nm }).res.record.map
          VRecord.postOffice = some (strOr (some o.name) (strOr pd.po "")) ∧
      (handlerRev1 pw key gf jp cache
          { address := some addr, customerName := nm }).res.record.map
          VRecord.tehsil = some (strOr (some o.taluk) (strOr pd.tehsil "")) ∧
      (handlerRev1 pw key gf jp cache
          { address := some addr, customerName := nm }).res.record.map
          VRecord.district = some (strOr (some o.district) (strOr pd.distDot "")) ∧
      (handlerRev1 pw key gf jp cache
          { address := some addr, customerName := nm }).res.record.map
          VRecord.state = some (strOr (some o.state) (strOr pd.state ""))) ∧
    ((handlerRev1 pw key gf jp cache
        { address := some addr, customerName := nm }).log.primary = PORef.emptyObj →
      (handlerRev1 pw key gf jp cache
          { address := some addr, customerName := nm }).res.record.map
          VRecord.postOffice = some (strOr pd.po "") ∧
      (handlerRev1 pw key gf jp cache
          { address := some addr, customerName := nm }).res.record.map
          VRecord.tehsil = some (strOr pd.tehsil "") ∧
      (handlerRev1 pw key gf jp cache
          { address := some addr, customerName := nm }).res.record.map
          VRecord.district = some (strOr pd.distDot "") ∧
      (handlerRev1 pw key gf jp cache
          { address := some addr, customerName := nm }).res.record.map
          VRecord.state = some (strOr pd.state "")) ∧
    ((handlerRev1 pw key gf jp cache
        { address := some addr, customerName := nm }).log.primary ≠ PORef.undef →
      (handlerRev1 pw key gf jp cache
          { address := some addr, customerName := nm }).res.record.map
          VRecord.addressLine1 =
        some (strOr pd.formattedAddress (jsTrim (stripNoiseRev1 addr))) ∧
      (handlerRev1 pw key gf jp cache
          { address := some addr, customerName := nm }).res.record.map
          VRecord.landmark = some (directionalLandmark addr pd.landmark))) ∧
    ((∀ o, (handlerRev2 pw key gf jp cache
        { address := some addr, customerName := some nm2 }).log.primary = PORef.office o →
      (handlerRev2 pw key gf jp cache
          { address := some addr, customerName := some nm2 }).res.record.map
          VRecord.postOffice = some (strOr (some o.name) (strOr pd.po "")) ∧
      (handlerRev2 pw key gf jp cache
          { address := some addr, customerName := some nm2 }).res.record.map
          VRecord.tehsil = some (strOr (some o.taluk) (strOr pd.tehsil "")) ∧
      (handlerRev2 pw key gf jp cache
          { address := some addr, customerName := some nm2 }).res.record.map
          VRecord.district = some (strOr (some o.district) (strOr pd.distDot "")) ∧
      (handlerRev2 pw key gf jp cache
          { address := some addr, customerName := some nm2 }).res.record.map
          VRecord.state = some (strOr (some o.state) (strOr pd.state ""))) ∧
    ((handlerRev2 pw key gf jp cache
        { address := some addr, customerName := some nm2 }).log.primary = PORef.emptyObj →
      (handlerRev2 pw key gf jp cache
          { address := some addr, customerName := some nm2 }).res.record.map
          VRecord.postOffice = some (strOr pd.po "") ∧
      (handlerRev2 pw key gf jp cache
          { address := some addr, customerName := some nm2 }).res.record.map
          VRecord.tehsil = some (strOr pd.tehsil "") ∧
      (handlerRev2 pw key gf jp cache
          { address := some addr, customerName := some nm2 }).res.record.map
          VRecord.district = some (strOr pd.distDot "") ∧
      (handlerRev2 pw key gf jp cache
          { address := some addr, customerName := some nm2 }).res.record.map
          VRecord.state = some (strOr pd.state "")) ∧
    ((handlerRev2 pw key gf jp cache
        { address := some addr, customerName := some nm2 }).log.primary ≠ PORef.undef →
      (handlerRev2 pw key gf jp cache
          { address := some addr, customerName := some nm2 }).res.record.map
          VRecord.addressLine1 =
        some (strOr pd.formattedAddress (jsTrim (stripNoiseRev2 addr))) ∧
      (handlerRev2 pw key gf jp cache
          { address := some addr, customerName := some nm2 }).res.record.map
          VRecord.landmark = some (directionalLandmark addr pd.landmark))) := by
  constructor
  · simp only [handlerRev1]
    rw [if_pos (show strTruthy ({ address := some addr, customerName := nm } : Request).address =
      true by simp [strTruthy, ha])]
    rw [he, ht]
    rw [if_neg (show ¬ (strTruthy none = true ∨ ¬ strTruthy (some t) = true) by
      simp [strTruthy, htne])]
    simp only [Option.getD_some, rev1Tail, parseGemini, hp, finishRun_log]
    exact finishRun_geo _ _ _ _ _ _ _ _ _ _ _
  · simp only [handlerRev2]
    rw [if_pos (show strTruthy ({ address := some addr, customerName := some nm2 } :
      Request).address = true by simp [strTruthy, ha])]
    simp only [cleanedNameRev2]
    rw [he, ht]
    rw [if_neg (show ¬ (strTruthy none = true ∨ ¬ strTruthy (some t) = true) by
      simp [strTruthy, htne])]
    simp only [Option.getD_some, rev2Tail, parseGemini, hp]
    split
    · rename_i m heq
      have hok := deepChecksRev2_ok addr pd
        (pinStageRev2 pw (match extractPin addr with
          | some p => getIndiaPostData pw cache p
          | none => (PinResult.error, cache, 0)).2.1 pd.pin (extractPin addr)
          (match extractPin addr with
          | some p => getIndiaPostData pw cache p
          | none => (PinResult.error, cache, 0)).1).finalPin
        (pinStageRev2 pw (match extractPin addr with
          | some p => getIndiaPostData pw cache p
          | none => (PinResult.error, cache, 0)).2.1 pd.pin (extractPin addr)
          (match extractPin addr with
          | some p => getIndiaPostData pw cache p
          | none => (PinResult.error, cache, 0)).1).postal
        (pinStageRev2 pw (match extractPin addr with
          | some p => getIndiaPostData pw cache p
          | none => (PinResult.error, cache, 0)).2.1 pd.pin (extractPin addr)
          (match extractPin addr with
          | some p => getIndiaPostData pw cache p
          | none => (PinResult.error, cache, 0)).1).primary
      refine ⟨?_, ?_, ?_⟩
      · intro o ho
        simp only at ho
        obtain ⟨l, hl⟩ := hok (by rw [ho]; intro hcc; cases hcc)
        rw [hl] at heq
        cases heq
      · intro ho
        simp only at ho
        obtain ⟨l, hl⟩ := hok (by rw [ho]; intro hcc; cases hcc)
        rw [hl] at heq
        cases heq
      · intro hne
        simp only at hne
        obtain ⟨l, hl⟩ := hok hne
        rw [hl] at heq
        cases heq
    · simp only [finishRun_log]
      exact finishRun_geo _ _ _ _ _ _ _ _ _ _ _

/-- C4 witness: concrete run with a Verified office whose `Name` is present
("Shivajinagar", preferred over the Oracle value "P.O. Shivajinagar"). -/
theorem c4_geo_fields_witness :
    (("12 MG Road 411001" : String) ≠ "" ∧
      (getGeminiCore (some "k") gfReply).error = none ∧
      (getGeminiCore (some "k") gfReply).text = some "oracle-reply" ∧
      ("oracle-reply" : String) ≠ "" ∧
      jpC4 (cleanJsonText "oracle-reply") = some pdC4 ∧
      (handlerRev1 pwPune (some "k") gfReply jpC4 []
        { address := some "12 MG Road 411001", customerName := some "ram" }).log.primary =
        PORef.office (normPO cxOffice)) ∧
    (handlerRev1 pwPune (some "k") gfReply jpC4 []
      { address := some "12 MG Road 411001", customerName := some "ram" }).res.record.map
      VRecord.postOffice = some (strOr (some (normPO cxOffice).name) (strOr pdC4.po "")) := by
  have main := c4_geo_fields pwPune (some "k") gfReply jpC4 [] "12 MG Road 411001"
    "oracle-reply" pdC4 (some "ram") "shyam" (by decide) rfl rfl (by decide) rfl
  exact ⟨⟨by decide, rfl, rfl, by decide, rfl, rfl⟩, (main.1.1 (normPO cxOffice) rfl).1⟩
